import Mathlib

/-!
Verification development for the sanitize-text redaction core.

Text is modelled as a list of Unicode code points (`Str := List Nat`).
Python string primitives (`str.lower`, `str.strip`, `str.islower`,
`str.isalpha`, …) are modelled character-wise over the ASCII and
Latin-1 ranges, which cover every string the detectors of the repository and
data use.  The cryptographic hash calls (`hashlib.md5`/`hashlib.sha256`
followed by `int(hexdigest, 16)`) are third-party primitives and are
modelled as abstract functions `Str → Nat`; no property proved here
depends on their values.
-/

/-- Strings as lists of Unicode code points. -/
abbrev Str := List Nat

/-- Code points of a Lean string literal, for readable statements. -/
def pyStr (s : String) : Str := s.data.map Char.toNat

/-- Model of Python `str.isspace` per character (ASCII + Latin-1 whitespace). -/
def isSpaceB (c : Nat) : Bool :=
  c = 32 || (9 ≤ c && c ≤ 13) || (28 ≤ c && c ≤ 31) || c = 133 || c = 160

/-- ASCII decimal digit. -/
def isDigitB (c : Nat) : Bool := 48 ≤ c && c ≤ 57

/-- Uppercase cased letter (ASCII + Latin-1). -/
def isUpperB (c : Nat) : Bool :=
  (65 ≤ c && c ≤ 90) || (192 ≤ c && c ≤ 222 && c ≠ 215)

/-- Lowercase cased letter (ASCII + Latin-1). -/
def isLowerCasedB (c : Nat) : Bool :=
  (97 ≤ c && c ≤ 122) || c = 170 || c = 181 || c = 186 ||
  (223 ≤ c && c ≤ 255 && c ≠ 247)

/-- Model of Python `str.isalpha` per character (ASCII + Latin-1 letters). -/
def isAlphaB (c : Nat) : Bool := isUpperB c || isLowerCasedB c

/-- The detector word-boundary character class `[0-9A-Za-zÀ-ÖØ-öø-ÿ]`
from `JSONEntityDetector.iter_filth`. -/
def isLetterishB (c : Nat) : Bool :=
  isDigitB c || (65 ≤ c && c ≤ 90) || (97 ≤ c && c ≤ 122) ||
  (192 ≤ c && c ≤ 214) || (216 ≤ c && c ≤ 246) || (248 ≤ c && c ≤ 255)

/-- Regex `\w` word character (letters, digits, underscore). -/
def isWordB (c : Nat) : Bool := isAlphaB c || isDigitB c || c = 95

/-- Model of Python `str.lower` per character. -/
def lowerCh (c : Nat) : Nat :=
  if 65 ≤ c && c ≤ 90 then c + 32
  else if 192 ≤ c && c ≤ 222 && c ≠ 215 then c + 32
  else c

/-- Model of Python `str.upper` per character. -/
def upperCh (c : Nat) : Nat :=
  if 97 ≤ c && c ≤ 122 then c - 32
  else if 224 ≤ c && c ≤ 254 && c ≠ 247 then c - 32
  else c

/-- Model of Python `str.lower`. -/
def pyLower (s : Str) : Str := s.map lowerCh

/-- Model of Python `str.upper`. -/
def pyUpper (s : Str) : Str := s.map upperCh

/-- Model of Python `str.islower`: at least one cased character and
no uppercase cased character. -/
def pyIsLower (s : Str) : Bool :=
  s.any (fun c => isUpperB c || isLowerCasedB c) && s.all (fun c => !isUpperB c)

/-- Model of Python `str.strip` (whitespace from both ends). -/
def pyStrip (s : Str) : Str :=
  ((s.dropWhile isSpaceB).reverse.dropWhile isSpaceB).reverse

/-- Python slice `s[a:b]` (for `a ≤ b`; clamps at the ends like Python). -/
def strSlice (s : Str) (a b : Nat) : Str := (s.drop a).take (b - a)

/-- Model of Python `str.startswith`. -/
def startsWithB (p s : Str) : Bool := decide (s.take p.length = p)

/-- Model of Python `in` on strings (substring containment). -/
def hasInfixB (p s : Str) : Bool :=
  (List.range (s.length + 1)).any (fun i => startsWithB p (s.drop i))

/-- Model of Python `str.find(p, start)`: least index `≥ start` where `p`
occurs, if any. -/
def findFromB (s p : Str) (start : Nat) : Option Nat :=
  ((List.range (s.length + 1)).filter
    (fun i => start ≤ i && startsWithB p (s.drop i))).head?

/-- Decimal digits of `n` (fuel-driven so it reduces definitionally);
models Python `str(n)`. -/
def natDigitsAux : Nat → Nat → Str
  | 0, _ => []
  | fuel + 1, n => if n < 10 then [48 + n] else natDigitsAux fuel (n / 10) ++ [48 + n % 10]

/-- Decimal representation of a natural number. -/
def natDigits (n : Nat) : Str := natDigitsAux (n + 1) n

/-- Numeric value of a decimal digit string. -/
def digitsVal (ds : Str) : Nat := ds.foldl (fun a c => a * 10 + (c - 48)) 0

/-- Zero-pad a digit string on the left to width `w`;
models Python format `{v:0{w}d}`. -/
def padZeros (w : Nat) (ds : Str) : Str := List.replicate (w - ds.length) 48 ++ ds

/-! ## Basic lemmas about the primitives -/

theorem digitsVal_append_single (l : Str) (c : Nat) :
    digitsVal (l ++ [c]) = digitsVal l * 10 + (c - 48) := by
  simp [digitsVal, List.foldl_append]

theorem digitsVal_natDigitsAux : ∀ (fuel n : Nat), n < fuel →
    digitsVal (natDigitsAux fuel n) = n := by
  intro fuel
  induction fuel with
  | zero => intro n h; omega
  | succ f ih =>
    intro n h
    by_cases h10 : n < 10
    · simp only [natDigitsAux, if_pos h10]
      simp [digitsVal]
    · have hdiv : n / 10 < n := Nat.div_lt_self (by omega) (by omega)
      have : n / 10 < f := by omega
      simp only [natDigitsAux, h10, if_false]
      rw [digitsVal_append_single, ih _ this]
      have := Nat.div_add_mod n 10
      omega

theorem digitsVal_natDigits (n : Nat) : digitsVal (natDigits n) = n :=
  digitsVal_natDigitsAux _ _ (Nat.lt_succ_self n)

theorem digitsVal_padZeros (w : Nat) (ds : Str) :
    digitsVal (padZeros w ds) = digitsVal ds := by
  unfold padZeros digitsVal
  rw [List.foldl_append]
  congr 1
  generalize (w - ds.length) = k
  induction k with
  | zero => rfl
  | succ m ih => simpa [List.replicate_succ] using ih

theorem mem_natDigitsAux_digit : ∀ (fuel n c : Nat),
    c ∈ natDigitsAux fuel n → isDigitB c = true := by
  intro fuel
  induction fuel with
  | zero => intro n c h; simp [natDigitsAux] at h
  | succ f ih =>
    intro n c h
    by_cases h10 : n < 10
    · simp [natDigitsAux, h10] at h
      simp [isDigitB]; omega
    · simp only [natDigitsAux, h10, if_false, List.mem_append, List.mem_singleton] at h
      rcases h with h | h
      · exact ih _ _ h
      · have : n % 10 < 10 := Nat.mod_lt _ (by omega)
        simp [h, isDigitB]; omega

theorem mem_padZeros_digit (w : Nat) (ds : Str) (c : Nat)
    (hds : ∀ x ∈ ds, isDigitB x = true) (h : c ∈ padZeros w ds) :
    isDigitB c = true := by
  unfold padZeros at h
  rcases List.mem_append.mp h with h | h
  · have := List.eq_of_mem_replicate h
    subst this; decide
  · exact hds _ h

theorem length_padZeros (w : Nat) (ds : Str) :
    w ≤ (padZeros w ds).length := by
  simp [padZeros]; omega

/-! ## The placeholder post-processor (`HashedPIIReplacer`)

Shallow embedding of `sanitize_text/utils/post_processors.py`.  A filth
record carries the fields the post-processor reads; markdown-origin
matches (`MarkdownUrlFilth`) additionally carry `(link_text,
bracket_pairs)` in `md`. -/

structure FilthM where
  ftype : Str
  beg : Nat
  fend : Nat
  ftext : Str
  detectorName : Str
  furl : Str := []
  md : Option (Str × Nat) := none
  replacement : Option Str := none
deriving DecidableEq

/-- Replacer configuration: `HashedPIIReplacer.__init__` arguments plus the
two abstract hash primitives (`int(hashlib.md5(key).hexdigest(), 16)` and
the sha256 variant). -/
structure ReplacerCfg where
  algorithm : Str
  modulus : Nat
  md5h : Str → Nat
  sha256h : Str → Nat

/-- Source `max(1, int(modulus))` from the replacer constructor. -/
def effModulus (cfg : ReplacerCfg) : Nat := Nat.max 1 cfg.modulus

/-- Hash selection: sha256 when configured, md5 otherwise. -/
def hashOf (cfg : ReplacerCfg) (key : Str) : Nat :=
  if cfg.algorithm = pyStr "sha256" then cfg.sha256h key else cfg.md5h key

/-- The cache key `f"{filth.type}:{filth.text}"`. -/
def mkKey (f : FilthM) : Str := f.ftype ++ 58 :: f.ftext

/-- The URL-shape test on the lowercased filth text from `process_filth`:
protocol/www prefixes, a SharePoint fragment, or a compacted markdown
link shape. -/
def isUrlish (lowerText : Str) : Bool :=
  startsWithB (pyStr "http://") lowerText || startsWithB (pyStr "https://") lowerText ||
  startsWithB (pyStr "ftp://") lowerText || startsWithB (pyStr "www.") lowerText ||
  hasInfixB (pyStr "sharepoint.com/") lowerText ||
  (let compact := lowerText.filter (fun c => !(c = 32))
   startsWithB (pyStr "[") compact && hasInfixB (pyStr "](") compact &&
     hasInfixB (pyStr "://") compact)

/-- Placeholder category: `"URL"` for markdown links and URL-shaped text,
otherwise the uppercased filth type. -/
def placeholderType (f : FilthM) : Str :=
  if f.ftype = pyStr "markdown_url" || isUrlish (pyLower f.ftext) then pyStr "URL"
  else pyUpper f.ftype

/-- Source `width = max(3, len(str(self.modulus - 1)))`. -/
def phWidth (cfg : ReplacerCfg) : Nat := Nat.max 3 (natDigits (effModulus cfg - 1)).length

/-- The placeholder computed for a first-seen key:
`f"{placeholder_type}-{hash_val:0{width}d}"`. -/
def placeholderFor (cfg : ReplacerCfg) (f : FilthM) : Str :=
  placeholderType f ++ 45 :: padZeros (phWidth cfg) (natDigits (hashOf cfg (mkKey f) % effModulus cfg))

/-- Replacement string construction: markdown filth is rebuilt as
`[link_text](placeholder)` (brackets repeated `bracket_pairs` times),
anything else receives the placeholder itself. -/
def renderRepl (f : FilthM) (ph : Str) : Str :=
  match f.md with
  | some (lt, bp) => List.replicate bp 91 ++ lt ++ List.replicate bp 93 ++ 40 :: (ph ++ [41])
  | none => ph

/-- Set `replacement_string` on a filth. -/
def withRepl (f : FilthM) (ph : Str) : FilthM := { f with replacement := some (renderRepl f ph) }

/-- Ordered-dictionary lookup for the `seen_values` cache. -/
def lookupA (k : Str) : List (Str × Str) → Option Str
  | [] => none
  | (k', v) :: t => if k' = k then some v else lookupA k t

/-- Model of `HashedPIIReplacer.process_filth`: walk the filth list threading the
`seen_values` cache; a first-seen key computes and caches its placeholder,
later identical keys reuse the cached value. -/
def processFilth (cfg : ReplacerCfg) : List FilthM → List (Str × Str) → List FilthM
  | [], _ => []
  | f :: rest, seen =>
    match lookupA (mkKey f) seen with
    | some p => withRepl f p :: processFilth cfg rest seen
    | none =>
        withRepl f (placeholderFor cfg f) ::
          processFilth cfg rest (seen ++ [(mkKey f, placeholderFor cfg f)])

/-- First filth in a list whose key is `k`. -/
def firstWithKey (fs : List FilthM) (k : Str) : Option FilthM :=
  (fs.filter (fun g => mkKey g = k)).head?

theorem lookupA_append (k : Str) (l₁ l₂ : List (Str × Str)) :
    lookupA k (l₁ ++ l₂) =
      (match lookupA k l₁ with | some v => some v | none => lookupA k l₂) := by
  induction l₁ with
  | nil => simp [lookupA]
  | cons p t ih =>
    obtain ⟨k', v⟩ := p
    by_cases h : k' = k <;> simp [lookupA, h, ih]

theorem firstWithKey_nil (k : Str) : firstWithKey [] k = none := rfl

theorem firstWithKey_cons (f : FilthM) (fs : List FilthM) (k : Str) :
    firstWithKey (f :: fs) k = if mkKey f = k then some f else firstWithKey fs k := by
  by_cases h : mkKey f = k <;> simp [firstWithKey, List.filter_cons, h]

theorem firstWithKey_append (fs gs : List FilthM) (k : Str) :
    firstWithKey (fs ++ gs) k =
      (match firstWithKey fs k with | some f => some f | none => firstWithKey gs k) := by
  induction fs with
  | nil => simp [firstWithKey_nil]
  | cons f t ih =>
    rw [List.cons_append, firstWithKey_cons, firstWithKey_cons]
    by_cases h : mkKey f = k <;> simp [h, ih]

/-- Core cache invariant of `process_filth`: the `i`-th output filth gets its
replacement rendered from the placeholder computed at the first occurrence of
its key. -/
theorem processFilth_spec (cfg : ReplacerCfg) :
    ∀ (fs past : List FilthM) (seen : List (Str × Str)),
      (∀ k, lookupA k seen = Option.map (placeholderFor cfg) (firstWithKey past k)) →
      ∀ (i : Nat), i < fs.length →
        ∃ fi f₀, fs[i]? = some fi ∧
          firstWithKey (past ++ fs) (mkKey fi) = some f₀ ∧
          (processFilth cfg fs seen)[i]? = some (withRepl fi (placeholderFor cfg f₀)) := by
  intro fs
  induction fs with
  | nil => intro past seen _ i hi; simp at hi
  | cons f rest ih =>
    intro past seen hgood i hi
    have hkey := hgood (mkKey f)
    have hsingle : ∀ k, mkKey f ≠ k → firstWithKey [f] k = none := by
      intro k hk
      rw [firstWithKey_cons, if_neg hk, firstWithKey_nil]
    have happ : past ++ [f] ++ rest = past ++ f :: rest := by
      rw [List.append_assoc, List.singleton_append]
    cases hfw : firstWithKey past (mkKey f) with
    | some f₀ =>
      rw [hfw, Option.map_some'] at hkey
      have hcons : processFilth cfg (f :: rest) seen =
          withRepl f (placeholderFor cfg f₀) :: processFilth cfg rest seen := by
        simp [processFilth, hkey]
      have hgood' : ∀ k, lookupA k seen =
          Option.map (placeholderFor cfg) (firstWithKey (past ++ [f]) k) := by
        intro k
        rw [firstWithKey_append]
        by_cases hk : mkKey f = k
        · subst hk
          rw [hfw, hgood _, hfw]
        · rw [hsingle k hk, hgood k]
          cases hpk : firstWithKey past k <;> simp
      cases i with
      | zero =>
        refine ⟨f, f₀, by simp, ?_, ?_⟩
        · rw [firstWithKey_append, hfw]
        · rw [hcons]; simp
      | succ j =>
        obtain ⟨fi, f0, h1, h2, h3⟩ := ih (past ++ [f]) seen hgood' j (by simpa using hi)
        refine ⟨fi, f0, by simpa using h1, ?_, ?_⟩
        · rw [happ] at h2; exact h2
        · rw [hcons]; simpa using h3
    | none =>
      rw [hfw, Option.map_none'] at hkey
      have hcons : processFilth cfg (f :: rest) seen =
          withRepl f (placeholderFor cfg f) ::
            processFilth cfg rest (seen ++ [(mkKey f, placeholderFor cfg f)]) := by
        simp [processFilth, hkey]
      have hgood' : ∀ k, lookupA k (seen ++ [(mkKey f, placeholderFor cfg f)]) =
          Option.map (placeholderFor cfg) (firstWithKey (past ++ [f]) k) := by
        intro k
        rw [lookupA_append, firstWithKey_append]
        by_cases hk : mkKey f = k
        · subst hk
          rw [hkey, hfw, firstWithKey_cons, if_pos rfl]
          simp [lookupA]
        · rw [hsingle k hk]
          have hl : lookupA k [(mkKey f, placeholderFor cfg f)] = none := by
            simp [lookupA, hk]
          rw [hgood k]
          cases hpk : firstWithKey past k <;> simp [hl]
      cases i with
      | zero =>
        refine ⟨f, f, by simp, ?_, ?_⟩
        · rw [firstWithKey_append, hfw, firstWithKey_cons, if_pos rfl]
        · rw [hcons]; simp
      | succ j =>
        obtain ⟨fi, f0, h1, h2, h3⟩ := ih (past ++ [f])
          (seen ++ [(mkKey f, placeholderFor cfg f)]) hgood' j (by simpa using hi)
        refine ⟨fi, f0, by simpa using h1, ?_, ?_⟩
        · rw [happ] at h2; exact h2
        · rw [hcons]; simpa using h3

/-- The computed placeholder always has the shape
`CATEGORY ++ "-" ++ digits` with at least three digits whose value is the
configured hash of the key reduced modulo the effective modulus. -/
theorem placeholderFor_shape (cfg : ReplacerCfg) (f : FilthM) :
    ∃ ds : Str, placeholderFor cfg f = placeholderType f ++ 45 :: ds ∧
      (∀ c ∈ ds, isDigitB c = true) ∧ 3 ≤ ds.length ∧
      digitsVal ds = hashOf cfg (mkKey f) % effModulus cfg := by
  refine ⟨_, rfl, ?_, ?_, digitsVal_padZeros _ _ |>.trans (digitsVal_natDigits _)⟩
  · intro c hc
    exact mem_padZeros_digit _ _ _ (fun x hx => mem_natDigitsAux_digit _ _ _ hx) hc
  · have h1 := length_padZeros (phWidth cfg)
      (natDigits (hashOf cfg (mkKey f) % effModulus cfg))
    have h2 : 3 ≤ phWidth cfg := Nat.le_max_left _ _
    exact le_trans h2 h1

/-! ## Claim C1: placeholder assignment and caching -/

/-- A fixed zero hash used to instantiate the abstract hash primitives in
concrete evaluations. -/
def hashZero : Str → Nat := fun _ => 0

/-- Default replacer configuration (`algorithm="md5"`, `modulus=10000`)
with a concrete hash instantiation. -/
def cfgZero : ReplacerCfg :=
  { algorithm := pyStr "md5", modulus := 10000, md5h := hashZero, sha256h := hashZero }

/-- A plain name filth record. -/
def fJohn : FilthM :=
  { ftype := pyStr "name", beg := 0, fend := 4, ftext := pyStr "John",
    detectorName := pyStr "name" }

/-- A markdown-origin filth record, as `MarkdownUrlDetector` produces for
`[Example](http://x)`. -/
def fMd0 : FilthM :=
  { ftype := pyStr "markdown_url", beg := 0, fend := 19,
    ftext := pyStr "[Example](http://x)", detectorName := pyStr "markdown_url",
    furl := pyStr "http://x", md := some (pyStr "Example", 1) }

/-- Claim C1, as stated, is false: a markdown-origin match does not receive a
replacement string of the bare form `CATEGORY-digits`; its replacement wraps
the cached placeholder in the markdown link reconstruction. -/
theorem c1_counterexample :
    (processFilth cfgZero [fMd0] []).map FilthM.replacement
        = [some (pyStr "[Example](URL-0000)")] ∧
    placeholderFor cfgZero fMd0 = pyStr "URL-0000" ∧
    pyStr "[Example](URL-0000)" ≠ pyStr "URL-0000" := by
  refine ⟨?_, ?_, ?_⟩ <;> decide

/-- Claim C1 (amended): the replacement of every processed filth is rendered from
the placeholder cached at the first occurrence of its `type:text` key — plain
matches receive the placeholder itself and markdown matches receive
`[text](placeholder)` — and that placeholder has the form
`CATEGORY ++ "-" ++ digits` with at least three digits whose value is the
configured hash of the key reduced modulo the effective modulus. -/
theorem c1_placeholder_assignment (cfg : ReplacerCfg) (fs : List FilthM) (i : Nat)
    (hi : i < fs.length) :
    ∃ fi f₀ ds, fs[i]? = some fi ∧
      firstWithKey fs (mkKey fi) = some f₀ ∧
      (processFilth cfg fs [])[i]? = some (withRepl fi (placeholderFor cfg f₀)) ∧
      placeholderFor cfg f₀ = placeholderType f₀ ++ 45 :: ds ∧
      (∀ c ∈ ds, isDigitB c = true) ∧ 3 ≤ ds.length ∧
      digitsVal ds = hashOf cfg (mkKey f₀) % effModulus cfg := by
  obtain ⟨fi, f₀, h1, h2, h3⟩ :=
    processFilth_spec cfg fs [] [] (fun _ => rfl) i hi
  obtain ⟨ds, hds1, hds2, hds3, hds4⟩ := placeholderFor_shape cfg f₀
  exact ⟨fi, f₀, ds, h1, h2, h3, hds1, hds2, hds3, hds4⟩

/-- Witness for C1 at a concrete two-element run with a repeated key. -/
theorem c1_placeholder_assignment_witness :
    (1 : Nat) < [fJohn, fJohn].length ∧
    ∃ fi f₀ ds, [fJohn, fJohn][1]? = some fi ∧
      firstWithKey [fJohn, fJohn] (mkKey fi) = some f₀ ∧
      (processFilth cfgZero [fJohn, fJohn] [])[1]? =
        some (withRepl fi (placeholderFor cfgZero f₀)) ∧
      placeholderFor cfgZero f₀ = placeholderType f₀ ++ 45 :: ds ∧
      (∀ c ∈ ds, isDigitB c = true) ∧ 3 ≤ ds.length ∧
      digitsVal ds = hashOf cfgZero (mkKey f₀) % effModulus cfgZero :=
  ⟨by decide, c1_placeholder_assignment cfgZero [fJohn, fJohn] 1 (by decide)⟩

/-! ## The IP detectors (`ip_detectors.py`): regex models

Executable models of the two compiled regular expressions, with Python
backtracking semantics.  `privAt`/`pubAt` attempt a match at one position
and return the end offset; `reFindAll` models `re.finditer`. -/

/-- Character of `text` at index `i` (0 beyond the end). -/
def chAt (text : Str) (i : Nat) : Nat := text.getD i 0

/-- Literal match at a position. -/
def litAt (text : Str) (i : Nat) (lit : Str) : Bool :=
  decide (strSlice text i (i + lit.length) = lit)

/-- Length of the run of ASCII digits at the head of a list. -/
def digitRunFrom : Str → Nat
  | [] => 0
  | c :: t => if isDigitB c then 1 + digitRunFrom t else 0

/-- Length of the digit run starting at index `i`. -/
def digitRunAt (text : Str) (i : Nat) : Nat := digitRunFrom (text.drop i)

/-- Is there a regex word character (`\w`) at index `i`? -/
def wordAtB (text : Str) (i : Nat) : Bool := i < text.length && isWordB (chAt text i)

/-- Word character strictly before index `i`. -/
def wordBefore (text : Str) (i : Nat) : Bool := 0 < i && wordAtB text (i - 1)

/-- Regex `\b` word boundary at index `i`. -/
def boundaryAt (text : Str) (i : Nat) : Bool := wordBefore text i != wordAtB text i

/-- Greedy `\d{1,n}` with backtracking: try `l` digits (longest first), then
hand the continuation the next index. -/
def tryLens (k : Nat → Option Nat) (i : Nat) : Nat → Option Nat
  | 0 => none
  | l + 1 =>
    match k (i + (l + 1)) with
    | some e => some e
    | none => tryLens k i l

/-- Regex `\.` followed by continuation. -/
def tryDot (k : Nat → Option Nat) (text : Str) (j : Nat) : Option Nat :=
  if j < text.length && chAt text j = 46 then k (j + 1) else none

/-- Regex `\d{1,3}\.` followed by continuation. -/
def octDot (text : Str) (k : Nat → Option Nat) (i : Nat) : Option Nat :=
  tryLens (fun j => tryDot k text j) i (Nat.min 3 (digitRunAt text i))

/-- Regex `\d{1,3}` followed by continuation. -/
def octEnd (text : Str) (k : Nat → Option Nat) (i : Nat) : Option Nat :=
  tryLens k i (Nat.min 3 (digitRunAt text i))

/-- Model of `PrivateIPDetector.regex`:
`\b(?:192\.168\.\d{1,3}\.\d{1,3}|10\.0\.\d{1,3}\.\d{1,3}|172\.\d{1,3}\.\d{1,3}\.\d{1,3})\b`
attempted at index `i`; returns the match end. -/
def privAt (text : Str) (i : Nat) : Option Nat :=
  if !boundaryAt text i then none
  else
    let fin : Nat → Option Nat := fun j => if boundaryAt text j then some j else none
    let b1 := if litAt text i (pyStr "192.168.") then octDot text (octEnd text fin) (i + 8) else none
    let b2 := if litAt text i (pyStr "10.0.") then octDot text (octEnd text fin) (i + 5) else none
    let b3 := if litAt text i (pyStr "172.") then
        octDot text (octDot text (octEnd text fin)) (i + 4) else none
    match b1 with
    | some e => some e
    | none => match b2 with
      | some e => some e
      | none => b3

/-- Second-octet alternation `1[6-9]|2[0-9]|3[0-1]` of the public-IP
negative lookahead, at index `j`. -/
def privSecondOctB (text : Str) (j : Nat) : Bool :=
  j + 1 < text.length &&
  (let c1 := chAt text j
   let c2 := chAt text (j + 1)
   (c1 = 49 && 54 ≤ c2 && c2 ≤ 57) || (c1 = 50 && isDigitB c2) ||
     (c1 = 51 && (c2 = 48 || c2 = 49)))

/-- The negative-lookahead body
`(?:192\.168|10\.0|172\.(?:1[6-9]|2[0-9]|3[0-1]))\.\d{1,3}\.\d{1,3}`
attempted at index `i`. -/
def lookaheadPriv (text : Str) (i : Nat) : Bool :=
  let done : Nat → Option Nat := fun j => some j
  let tail : Nat → Option Nat := fun j => tryDot (octDot text (octEnd text done)) text j
  let a1 := if litAt text i (pyStr "192.168") then tail (i + 7) else none
  let a2 := if litAt text i (pyStr "10.0") then tail (i + 4) else none
  let a3 := if litAt text i (pyStr "172.") && privSecondOctB text (i + 4) then
      tail (i + 6) else none
  a1.isSome || a2.isSome || a3.isSome

/-- Model of `PublicIPDetector.regex`:
`\b(?!lookahead)(?:\d{1,3}\.){3}\d{1,3}\b` attempted at index `i`. -/
def pubAt (text : Str) (i : Nat) : Option Nat :=
  if !boundaryAt text i then none
  else if lookaheadPriv text i then none
  else
    let fin : Nat → Option Nat := fun j => if boundaryAt text j then some j else none
    octDot text (octDot text (octDot text (octEnd text fin))) i

/-- Model of `re.finditer`: scan left to right, emitting non-overlapping matches. -/
def reFindAux (matchAt : Str → Nat → Option Nat) (text : Str) :
    Nat → Nat → List (Nat × Nat)
  | 0, _ => []
  | fuel + 1, pos =>
    if pos ≤ text.length then
      match matchAt text pos with
      | some e => (pos, e) :: reFindAux matchAt text fuel (if pos < e then e else pos + 1)
      | none => reFindAux matchAt text fuel (pos + 1)
    else []

/-- All matches of a regex model in `text`. -/
def reFindAll (matchAt : Str → Nat → Option Nat) (text : Str) : List (Nat × Nat) :=
  reFindAux matchAt text (text.length + 1) 0

/-- Build an IP filth record from a match span. -/
def ipFilth (ftp dname : Str) (text : Str) (m : Nat × Nat) : FilthM :=
  { ftype := ftp, beg := m.1, fend := m.2, ftext := strSlice text m.1 m.2,
    detectorName := dname }

/-- Model of `PrivateIPDetector.iter_filth`. -/
def privateIPIterFilth (text : Str) : List FilthM :=
  (reFindAll privAt text).map (ipFilth (pyStr "private_ip") (pyStr "private_ip") text)

/-- Model of `PublicIPDetector.iter_filth`. -/
def publicIPIterFilth (text : Str) : List FilthM :=
  (reFindAll pubAt text).map (ipFilth (pyStr "public_ip") (pyStr "public_ip") text)

/-- Claim C4: the scenario `"10.0.0.5 and 8.8.8.8"` behaves as specified,
but the `172` branch of the private pattern accepts every second octet, so the
literal `172.50.1.1` is yielded by both detectors — the code contradicts its
own documented ranges (`172.16.0.0`–`172.31.255.255`). -/
theorem c4_ip_classification :
    (privateIPIterFilth (pyStr "10.0.0.5 and 8.8.8.8")).map FilthM.ftext
        = [pyStr "10.0.0.5"] ∧
    (publicIPIterFilth (pyStr "10.0.0.5 and 8.8.8.8")).map FilthM.ftext
        = [pyStr "8.8.8.8"] ∧
    (privateIPIterFilth (pyStr "172.50.1.1")).map FilthM.ftext
        = [pyStr "172.50.1.1"] ∧
    (publicIPIterFilth (pyStr "172.50.1.1")).map FilthM.ftext
        = [pyStr "172.50.1.1"] := by
  refine ⟨?_, ?_, ?_, ?_⟩ <;> decide

/-! ## `JSONEntityDetector` (`custom_detectors/base.py`)

The Aho-Corasick automaton (`ahocorasick` third-party library) is modelled
by its contract: `add_word` builds a keyword map (last value wins per key)
and `iter` reports, for every end position of the scanned text, every
stored keyword ending there. -/

structure DetectorCfg where
  dname : Str
  ftypeD : Str
  commonWords : List Str
  entities : List Str
deriving DecidableEq

/-- A candidate span collected by the detector. -/
structure Cand where
  cs : Nat
  ce : Nat
  ctext : Str
deriving DecidableEq

/-- Model of the `_load_json_entities` base filter: strip each raw `match` string, then
drop it when it has length ≤ 1, its lowercase form is a common word, or it
has no alphabetic character. -/
def loadJsonEntities (raws : List Str) (commonWords : List Str) : List Str :=
  raws.filterMap (fun raw =>
    let m := pyStrip raw
    if m.length ≤ 1 || decide (pyLower m ∈ commonWords) || !(m.any isAlphaB) then none
    else some m)

/-- Insert-or-update for the keyword map (`dict` insertion semantics:
an existing key keeps its position, the value is overwritten). -/
def upsert (k v : Str) : List (Str × Str) → List (Str × Str)
  | [] => [(k, v)]
  | (k', v') :: t => if k' = k then (k, v) :: t else (k', v') :: upsert k v t

/-- Model of `_build_automaton`: map each lowercased entity to its original form. -/
def automEntries (D : DetectorCfg) : List (Str × Str) :=
  D.entities.foldl (fun m e => upsert (pyLower e) e m) []

/-- Model of `_multi_word_entities`: lowercased entities containing a space. -/
def multiWordEntities (D : DetectorCfg) : List Str :=
  D.entities.foldl (fun s e =>
    if decide (32 ∈ e) && !(decide (pyLower e ∈ s)) then s ++ [pyLower e] else s) []

/-- Does `pat` occur in `text` ending at (inclusive) index `e`? -/
def occursEndingAt (pat text : Str) (e : Nat) : Bool :=
  pat.length ≤ e + 1 && decide (strSlice text (e + 1 - pat.length) (e + 1) = pat)

/-- Model of `automaton.iter(text_lower)`: every `(end index, original entity)` hit. -/
def automHits (D : DetectorCfg) (textLow : Str) : List (Nat × Str) :=
  (List.range textLow.length).flatMap (fun e =>
    (automEntries D).filterMap (fun kv =>
      if occursEndingAt kv.1 textLow e then some (e, kv.2) else none))

/-- Walk left from `l` to the start of the enclosing non-whitespace,
non-bracket token. -/
def extendLeftTok (text : Str) : Nat → Nat
  | 0 => 0
  | l + 1 =>
    let c := chAt text l
    if isSpaceB c || c = 91 || c = 93 || c = 40 || c = 41 || c = 60 || c = 62 then l + 1
    else extendLeftTok text l

/-- Count of characters until a whitespace/bracket stop character. -/
def extRightCount : Str → Nat
  | [] => 0
  | c :: t =>
    if isSpaceB c || c = 91 || c = 93 || c = 40 || c = 41 || c = 60 || c = 62 then 0
    else 1 + extRightCount t

/-- Walk right from `r` to the end of the enclosing token. -/
def extendRightTok (text : Str) (r : Nat) : Nat := r + extRightCount (text.drop r)

/-- Length of the run of `[a-z]` characters at the head of a list. -/
def lcRunFrom : Str → Nat
  | [] => 0
  | c :: t => if 97 ≤ c && c ≤ 122 then 1 + lcRunFrom t else 0

/-- Does `[a-z]{2,15}(?:/|\b)` match starting at index `i`? -/
def domainSuffixB (text : Str) (i : Nat) : Bool :=
  (List.range (Nat.min 15 (lcRunFrom (text.drop i)) + 1)).any (fun k =>
    2 ≤ k && (chAt text (i + k) = 47 || decide (i + k = text.length) ||
      !isWordB (chAt text (i + k))))

/-- The URL/markdown-context exclusion: expand `[s,e)` to the enclosing
token, lowercase it, and reject when it contains `://`, starts with `www.`,
or matches `\.[a-z]{2,15}(?:/|\b)`. -/
def urlTokenBadB (text : Str) (s e : Nat) : Bool :=
  let l := extendLeftTok text s
  let r := extendRightTok text e
  let token := pyLower (strSlice text l r)
  hasInfixB (pyStr "://") token || startsWithB (pyStr "www.") token ||
  (List.range token.length).any (fun i => chAt token i = 46 && domainSuffixB token (i + 1))

/-- Word-boundary filter: neighbours of the span must not be in the
letter/digit/diacritic class. -/
def boundaryOkB (text : Str) (s e : Nat) : Bool :=
  !(0 < s && isLetterishB (chAt text (s - 1))) &&
  !(e < text.length && isLetterishB (chAt text e))

/-- Stopword suppression: an all-lowercase match whose lowercase form is a
common word. -/
def stopwordRejectB (cw : List Str) (m : Str) : Bool :=
  pyIsLower m && decide (pyLower m ∈ cw)

/-- Category capitalization rule: organization/location detectors reject
all-lowercase matches. -/
def catCapRejectB (dname : Str) (m : Str) : Bool :=
  (decide (dname = pyStr "organization") || decide (dname = pyStr "location")) && pyIsLower m

/-- The main-path filter chain of `iter_filth`, in source order. -/
def mainAcceptB (D : DetectorCfg) (text : Str) (s e : Nat) (orig : Str) : Bool :=
  let m := strSlice text s e
  boundaryOkB text s e &&
  !urlTokenBadB text s e &&
  !(orig.length ≤ 3 && pyIsLower m) &&
  !stopwordRejectB D.commonWords m &&
  !catCapRejectB D.dname m &&
  m.any isAlphaB

/-- The automaton-hit loop of `iter_filth`: thread `seen_spans` and
`candidates` through every hit. -/
def mainFold (D : DetectorCfg) (text : Str) :
    List (Nat × Str) → List (Nat × Nat) → List Cand → List (Nat × Nat) × List Cand
  | [], seen, cands => (seen, cands)
  | (e, orig) :: hs, seen, cands =>
    let s := e + 1 - orig.length
    if decide ((s, e + 1) ∈ seen) then mainFold D text hs seen cands
    else if mainAcceptB D text s (e + 1) orig then
      mainFold D text hs (seen ++ [(s, e + 1)])
        (cands ++ [⟨s, e + 1, strSlice text s (e + 1)⟩])
    else mainFold D text hs seen cands

/-! ### Normalization-aware fallback (`_search_normalized_entities`) -/

/-- Zero-width / soft-hyphen code points stripped by `_strip_zw`. -/
def isZW (c : Nat) : Bool := c = 8203 || c = 8204 || c = 8205 || c = 8288 || c = 173

/-- Model of `_strip_zw`. -/
def stripZW (s : Str) : Str := s.filter (fun c => !isZW c)

/-- Model of `re.sub(r"&amp;|&", " en ", s, flags=re.IGNORECASE)`. -/
def ampToEnAux : Nat → Str → Str
  | 0, _ => []
  | _ + 1, [] => []
  | fuel + 1, c :: t =>
    if c = 38 then
      if pyLower (t.take 4) = pyStr "amp;" then pyStr " en " ++ ampToEnAux fuel (t.drop 4)
      else pyStr " en " ++ ampToEnAux fuel t
    else c :: ampToEnAux fuel t

/-- Ampersand-to-`" en "` normalization. -/
def ampToEn (s : Str) : Str := ampToEnAux s.length s

/-- Length of the leading whitespace run. -/
def spaceRunFrom : Str → Nat
  | [] => 0
  | c :: t => if isSpaceB c then 1 + spaceRunFrom t else 0

/-- Model of `re.sub(r"\s+", " ", s)`: collapse whitespace runs to single spaces. -/
def collapseWSAux : Nat → Str → Str
  | 0, _ => []
  | _ + 1, [] => []
  | fuel + 1, c :: t =>
    if isSpaceB c then 32 :: collapseWSAux fuel (t.dropWhile isSpaceB)
    else c :: collapseWSAux fuel t

/-- Whitespace collapsing. -/
def collapseWS (s : Str) : Str := collapseWSAux s.length s

/-- Model of `_normalize_for_entity`: strip zero-width characters, map ampersands to
`" en "`, collapse and trim whitespace, lowercase. -/
def normalizeForEntity (s : Str) : Str :=
  pyLower (pyStrip (collapseWS (ampToEn (stripZW s))))

/-- First loop of `_map_normalized_span`: advance `j` until `normIdx`
normalized characters have been consumed. -/
def mapNormStartAux (text : Str) (normIdx : Nat) : Nat → Nat → Nat → Nat
  | 0, j, _ => j
  | fuel + 1, j, count =>
    if j < text.length && count < normIdx then
      let ch := chAt text j
      if isZW ch then mapNormStartAux text normIdx fuel (j + 1) count
      else if ch = 38 then
        if pyLower (strSlice text j (j + 5)) = pyStr "&amp;" then
          mapNormStartAux text normIdx fuel (j + 5) (count + 3)
        else mapNormStartAux text normIdx fuel (j + 1) (count + 3)
      else if isSpaceB ch then
        mapNormStartAux text normIdx fuel (j + spaceRunFrom (text.drop j)) (count + 1)
      else mapNormStartAux text normIdx fuel (j + 1) (count + 1)
    else j

/-- Second loop of `_map_normalized_span`: consume `normLen` normalized
characters starting from the mapped start. -/
def mapNormEndAux (text : Str) (normLen : Nat) : Nat → Nat → Nat → Nat
  | 0, j, _ => j
  | fuel + 1, j, taken =>
    if j < text.length && taken < normLen then
      let ch := chAt text j
      if isZW ch then mapNormEndAux text normLen fuel (j + 1) taken
      else if pyLower (strSlice text j (j + 5)) = pyStr "&amp;" then
        mapNormEndAux text normLen fuel (j + 5) (taken + 3)
      else if ch = 38 then mapNormEndAux text normLen fuel (j + 1) (taken + 3)
      else if isSpaceB ch then
        mapNormEndAux text normLen fuel (j + spaceRunFrom (text.drop j)) (taken + 1)
      else mapNormEndAux text normLen fuel (j + 1) (taken + 1)
    else j

/-- Model of `_map_normalized_span`: map a normalized-text span back to original
offsets; `none` when the mapped span is empty. -/
def mapNormalizedSpan (text : Str) (normIdx normLen : Nat) : Option (Nat × Nat) :=
  let start := mapNormStartAux text normIdx (text.length + 1) 0 0
  let e := mapNormEndAux text normLen (text.length + 1) start 0
  if start < e then some (start, e) else none

/-- The fallback filter chain applied to a mapped span, in source order. -/
def fbAcceptB (D : DetectorCfg) (text : Str) (s e : Nat) : Bool :=
  let m := strSlice text s e
  m.any isAlphaB &&
  !(decide (10 ∈ m) || decide (13 ∈ m)) &&
  boundaryOkB text s e &&
  !(decide (pyLower (pyStrip m) ∈ D.commonWords)) &&
  !urlTokenBadB text s e &&
  !catCapRejectB D.dname m

/-- The per-entity position loop of `_search_normalized_entities`. -/
def fbScanAux (D : DetectorCfg) (text normText normEnt : Str) :
    Nat → Nat → List (Nat × Nat) → List Cand → List (Nat × Nat) × List Cand
  | 0, _, seen, cands => (seen, cands)
  | fuel + 1, pos, seen, cands =>
    match findFromB normText normEnt pos with
    | none => (seen, cands)
    | some idx =>
      match mapNormalizedSpan text idx normEnt.length with
      | none => fbScanAux D text normText normEnt fuel (idx + 1) seen cands
      | some (s, e) =>
        if decide ((s, e) ∈ seen) then
          fbScanAux D text normText normEnt fuel (idx + 1) seen cands
        else if fbAcceptB D text s e then
          fbScanAux D text normText normEnt fuel (idx + 1) (seen ++ [(s, e)])
            (cands ++ [⟨s, e, strSlice text s e⟩])
        else fbScanAux D text normText normEnt fuel (idx + 1) seen cands

/-- The entity loop of `_search_normalized_entities`: skip entities already
matched through the automaton and entities whose normalized form is shorter
than 5 characters. -/
def fbFold (D : DetectorCfg) (text normText : Str) :
    List Str → List (Nat × Nat) → List Cand → List (Nat × Nat) × List Cand
  | [], seen, cands => (seen, cands)
  | el :: rest, seen, cands =>
    if seen.any (fun sp => decide (pyLower (strSlice text sp.1 sp.2) = el)) then
      fbFold D text normText rest seen cands
    else
      let ne := normalizeForEntity el
      if ne.length < 5 then fbFold D text normText rest seen cands
      else
        let r := fbScanAux D text normText ne (normText.length + 2) 0 seen cands
        fbFold D text normText rest r.1 r.2

/-! ### Overlap resolution (`_filter_overlapping_candidates`) -/

/-- The sort key order of the ranked sort: by `(-(end - start), start)`;
so that `rankLe a b` holds when the key of `a` is at most that of `b`. -/
def rankLe (a b : Cand) : Prop :=
  b.ce - b.cs < a.ce - a.cs ∨ (a.ce - a.cs = b.ce - b.cs ∧ a.cs ≤ b.cs)

instance : DecidableRel rankLe := fun a b => by unfold rankLe; infer_instance

/-- The final sort order: by start offset. -/
def startLe (a b : Cand) : Prop := a.cs ≤ b.cs

instance : DecidableRel startLe := fun a b => by unfold startLe; infer_instance

/-- The greedy selection loop: accept a candidate iff it intersects no
already-accepted span. -/
def greedySelect : List Cand → List Cand → List Cand
  | [], acc => acc
  | c :: rest, acc =>
    if acc.any (fun d => !(decide (c.ce ≤ d.cs) || decide (c.cs ≥ d.ce))) then
      greedySelect rest acc
    else greedySelect rest (acc ++ [c])

/-- Model of `_filter_overlapping_candidates`: rank by longest-then-leftmost, accept
greedily, return in start order. -/
def filterOverlappingCandidates (cands : List Cand) : List Cand :=
  if cands = [] then []
  else List.insertionSort startLe (greedySelect (List.insertionSort rankLe cands) [])

/-! ### `iter_filth` assembly -/

/-- Build the filth record yielded for an accepted candidate. -/
def entityFilth (D : DetectorCfg) (c : Cand) : FilthM :=
  { ftype := D.ftypeD, beg := c.cs, fend := c.ce, ftext := c.ctext,
    detectorName := D.dname }

/-- State `seen_spans`/`candidates` after the automaton pass. -/
def mainCandidates (D : DetectorCfg) (text : Str) : List (Nat × Nat) × List Cand :=
  mainFold D text (automHits D (pyLower text)) [] []

/-- State `seen_spans`/`candidates` after the optional fallback pass. -/
def allCandidates (D : DetectorCfg) (text : Str) : List (Nat × Nat) × List Cand :=
  let r := mainCandidates D text
  if multiWordEntities D = [] then r
  else fbFold D text (normalizeForEntity text) (multiWordEntities D) r.1 r.2

/-- Model of `JSONEntityDetector.iter_filth`. -/
def iterFilth (D : DetectorCfg) (text : Str) : List FilthM :=
  if D.entities = [] then []
  else (filterOverlappingCandidates (allCandidates D text).2).map (entityFilth D)

/-! ## Strip idempotence -/

theorem head?_dropWhile_not (p : Nat → Bool) :
    ∀ (l : Str) (x : Nat), (l.dropWhile p).head? = some x → p x = false := by
  intro l
  induction l with
  | nil => intro x h; simp [List.dropWhile] at h
  | cons a t ih =>
    intro x h
    rw [List.dropWhile_cons] at h
    by_cases hp : p a
    · rw [if_pos hp] at h; exact ih x h
    · rw [if_neg hp] at h
      simp at h
      rw [← h]
      simpa using hp

theorem dropWhile_eq_self_of_head (p : Nat → Bool) (l : Str)
    (h : ∀ x, l.head? = some x → p x = false) : l.dropWhile p = l := by
  cases l with
  | nil => rfl
  | cons a t =>
    rw [List.dropWhile_cons, if_neg]
    simp [h a rfl]

theorem pyStrip_idem (s : Str) : pyStrip (pyStrip s) = pyStrip s := by
  have hheadA : ∀ x, (s.dropWhile isSpaceB).head? = some x → isSpaceB x = false :=
    head?_dropWhile_not _ _
  have hheadB : ∀ x, ((s.dropWhile isSpaceB).reverse.dropWhile isSpaceB).head? = some x →
      isSpaceB x = false := head?_dropWhile_not _ _
  unfold pyStrip
  have h1 : ((s.dropWhile isSpaceB).reverse.dropWhile isSpaceB).reverse.dropWhile isSpaceB
      = ((s.dropWhile isSpaceB).reverse.dropWhile isSpaceB).reverse := by
    apply dropWhile_eq_self_of_head
    intro x hx
    have hx' : ((s.dropWhile isSpaceB).reverse.dropWhile isSpaceB).getLast? = some x := by
      have hrr := List.getLast?_reverse
        ((s.dropWhile isSpaceB).reverse.dropWhile isSpaceB).reverse
      rw [List.reverse_reverse] at hrr
      rw [hrr]
      exact hx
    obtain ⟨u, hu⟩ := List.dropWhile_suffix (l := (s.dropWhile isSpaceB).reverse) isSpaceB
    have hlast : (s.dropWhile isSpaceB).reverse.getLast? = some x := by
      rw [← hu, List.getLast?_append, hx']
      rfl
    rw [List.getLast?_reverse] at hlast
    exact hheadA x hlast
  rw [h1, List.reverse_reverse]
  have h2 : ((s.dropWhile isSpaceB).reverse.dropWhile isSpaceB).dropWhile isSpaceB
      = (s.dropWhile isSpaceB).reverse.dropWhile isSpaceB :=
    dropWhile_eq_self_of_head _ _ hheadB
  rw [h2]

theorem length_pyStrip_eq (s : Str) (h : pyStrip s = s) : (pyStrip s).length = s.length := by
  rw [h]

/-! ## Claim C10: the entity load filter -/

/-- Claim C10: every loaded entity string is stripped, has (stripped)
length at least 2, contains an alphabetic character, and its lowercase form
is not a stopword; it arises by stripping an input record. -/
theorem c10_load_invariant (raws cw : List Str) (e : Str)
    (he : e ∈ loadJsonEntities raws cw) :
    pyStrip e = e ∧ 2 ≤ (pyStrip e).length ∧ e.any isAlphaB = true ∧
      pyLower e ∉ cw ∧ ∃ raw ∈ raws, e = pyStrip raw := by
  obtain ⟨raw, hraw, hsome⟩ := List.mem_filterMap.mp he
  by_cases hcond : (decide ((pyStrip raw).length ≤ 1) || decide (pyLower (pyStrip raw) ∈ cw) ||
      !((pyStrip raw).any isAlphaB)) = true
  · rw [if_pos hcond] at hsome
    exact Option.noConfusion hsome
  · rw [if_neg hcond] at hsome
    have he' : e = pyStrip raw := (Option.some_injective _ hsome).symm
    subst he'
    simp only [Bool.or_eq_true, decide_eq_true_eq, Bool.not_eq_true',
      not_or, Bool.not_eq_false] at hcond
    obtain ⟨⟨h1, h2⟩, h3⟩ := hcond
    refine ⟨pyStrip_idem raw, ?_, h3, h2, raw, hraw, rfl⟩
    rw [pyStrip_idem raw]
    omega

/-- Witness for C10 at a concrete load. -/
theorem c10_load_invariant_witness :
    pyStr "Bergen" ∈ loadJsonEntities [pyStr " Bergen "] [pyStr "de"] ∧
    (pyStrip (pyStr "Bergen") = pyStr "Bergen" ∧
      2 ≤ (pyStrip (pyStr "Bergen")).length ∧
      (pyStr "Bergen").any isAlphaB = true ∧
      pyLower (pyStr "Bergen") ∉ [pyStr "de"] ∧
      ∃ raw ∈ [pyStr " Bergen "], pyStr "Bergen" = pyStrip raw) :=
  ⟨by decide, c10_load_invariant [pyStr " Bergen "] [pyStr "de"] (pyStr "Bergen") (by decide)⟩

/-! ## Dutch detectors (`DutchEntityDetector`) -/

/-- Source `DutchEntityDetector.COMMON_WORDS` (the set literal,
as a list). -/
def dutchCommonWords : List Str :=
  [pyStr "een", pyStr "het", pyStr "de", pyStr "die", pyStr "dat", pyStr "deze",
   pyStr "dit", pyStr "dan", pyStr "toen", pyStr "als", pyStr "maar", pyStr "want",
   pyStr "dus", pyStr "nog", pyStr "al", pyStr "naar", pyStr "door", pyStr "om",
   pyStr "bij", pyStr "aan", pyStr "van", pyStr "in", pyStr "op", pyStr "te",
   pyStr "ten", pyStr "ter", pyStr "met", pyStr "tot", pyStr "voor", pyStr "ben",
   pyStr "hoeven", pyStr "velden", pyStr "drie", pyStr "halfweg", pyStr "heel",
   pyStr "waarde", pyStr "zetten", pyStr "nuis", pyStr "leiden", pyStr "loop",
   pyStr "mijlpaal", pyStr "functioneel", pyStr "beheerder",
   pyStr "applicatiebeheerder", pyStr "medewerker", pyStr "collega", pyStr "afdeling"]

/-- Source `EnglishEntityDetector.COMMON_WORDS`. -/
def englishCommonWords : List Str :=
  [pyStr "a", pyStr "an", pyStr "and", pyStr "at", pyStr "be", pyStr "for",
   pyStr "from", pyStr "has", pyStr "have", pyStr "in", pyStr "is", pyStr "it",
   pyStr "of", pyStr "on", pyStr "or", pyStr "that", pyStr "the", pyStr "their",
   pyStr "there", pyStr "this", pyStr "to", pyStr "was", pyStr "were", pyStr "with"]

/-- Model of `DutchEntityDetector._load_json_entities`: apply the base filter, then
drop entities already claimed by a higher-priority detector and add the
survivors (lowercased) to the shared cache. -/
def dedupLoad (raws cw cache : List Str) : List Str × List Str :=
  let ents := (loadJsonEntities raws cw).filter (fun e => !(decide (pyLower e ∈ cache)))
  (ents, cache ++ ents.map pyLower)

/-- The three Dutch category lists after the loads of one run, in registry order
(location, organization, name), sharing the dedup cache. -/
structure DutchLoaded where
  locEnts : List Str
  orgEnts : List Str
  nameEnts : List Str
  cacheOut : List Str
deriving DecidableEq

/-- Load the three Dutch categories in priority order, threading the shared
`_dutch_loaded_entities` cache. -/
def loadDutchNL (locRaw orgRaw nameRaw : List Str) (cache : List Str) : DutchLoaded :=
  let l := dedupLoad locRaw dutchCommonWords cache
  let o := dedupLoad orgRaw dutchCommonWords l.2
  let n := dedupLoad nameRaw dutchCommonWords o.2
  { locEnts := l.1, orgEnts := o.1, nameEnts := n.1, cacheOut := n.2 }

/-- Scenario data: "Bergen" in both the city and the organization lists. -/
def bergenCities : List Str := [pyStr "Bergen", pyStr "Amsterdam"]

/-- Organization list sharing the literal "Bergen". -/
def bergenOrgs : List Str := [pyStr "Bergen", pyStr "Philips"]

/-- Dutch location detector over the deduplicated city list. -/
def bergenLocD : DetectorCfg :=
  { dname := pyStr "location", ftypeD := pyStr "location",
    commonWords := dutchCommonWords,
    entities := (loadDutchNL bergenCities bergenOrgs [] []).locEnts }

/-- Dutch organization detector over the deduplicated organization list. -/
def bergenOrgD : DetectorCfg :=
  { dname := pyStr "organization", ftypeD := pyStr "organization",
    commonWords := dutchCommonWords,
    entities := (loadDutchNL bergenCities bergenOrgs [] []).orgEnts }

theorem mem_dedupLoad_fst (raws cw cache : List Str) (e : Str) :
    e ∈ (dedupLoad raws cw cache).1 ↔
      e ∈ loadJsonEntities raws cw ∧ pyLower e ∉ cache := by
  simp [dedupLoad, List.mem_filter]

/-- Claim C3: with the cache reset at the start of the run, a lowercase key
appears among the loaded location entities iff the (filtered) city list has
it; among organizations iff the organization list has it and the city list
does not; among names iff only the name list has it — so an entity present
in several source lists is claimed exactly by the highest-priority category.
The "Bergen" scenario: one location match, no organization match. -/
theorem c3_category_priority (locRaw orgRaw nameRaw : List Str) (s : Str) :
    ((∃ e ∈ (loadDutchNL locRaw orgRaw nameRaw []).locEnts, pyLower e = s) ↔
      (∃ e ∈ loadJsonEntities locRaw dutchCommonWords, pyLower e = s)) ∧
    ((∃ e ∈ (loadDutchNL locRaw orgRaw nameRaw []).orgEnts, pyLower e = s) ↔
      ((∃ e ∈ loadJsonEntities orgRaw dutchCommonWords, pyLower e = s) ∧
        ¬(∃ e ∈ loadJsonEntities locRaw dutchCommonWords, pyLower e = s))) ∧
    ((∃ e ∈ (loadDutchNL locRaw orgRaw nameRaw []).nameEnts, pyLower e = s) ↔
      ((∃ e ∈ loadJsonEntities nameRaw dutchCommonWords, pyLower e = s) ∧
        ¬(∃ e ∈ loadJsonEntities locRaw dutchCommonWords, pyLower e = s) ∧
        ¬(∃ e ∈ loadJsonEntities orgRaw dutchCommonWords, pyLower e = s))) ∧
    (loadDutchNL bergenCities bergenOrgs [] []).locEnts
        = [pyStr "Bergen", pyStr "Amsterdam"] ∧
    (loadDutchNL bergenCities bergenOrgs [] []).orgEnts = [pyStr "Philips"] ∧
    (iterFilth bergenLocD (pyStr "Ik woon in Bergen")).map FilthM.ftext
        = [pyStr "Bergen"] ∧
    iterFilth bergenOrgD (pyStr "Ik woon in Bergen") = [] := by
  have hLmem : ∀ e, e ∈ (loadDutchNL locRaw orgRaw nameRaw []).locEnts ↔
      e ∈ loadJsonEntities locRaw dutchCommonWords := by
    intro e
    simp [loadDutchNL, mem_dedupLoad_fst]
  have hOmem : ∀ e, e ∈ (loadDutchNL locRaw orgRaw nameRaw []).orgEnts ↔
      (e ∈ loadJsonEntities orgRaw dutchCommonWords ∧
        ¬∃ a ∈ loadJsonEntities locRaw dutchCommonWords, pyLower a = pyLower e) := by
    intro e
    simp only [loadDutchNL, mem_dedupLoad_fst, dedupLoad]
    simp [List.mem_filter, List.mem_map]
  have hNmem : ∀ e, e ∈ (loadDutchNL locRaw orgRaw nameRaw []).nameEnts ↔
      (e ∈ loadJsonEntities nameRaw dutchCommonWords ∧
        ¬(∃ a ∈ loadJsonEntities locRaw dutchCommonWords, pyLower a = pyLower e) ∧
        ¬(∃ a ∈ loadJsonEntities orgRaw dutchCommonWords, pyLower a = pyLower e)) := by
    intro e
    simp only [loadDutchNL, mem_dedupLoad_fst, dedupLoad]
    simp [List.mem_filter, List.mem_map]
    intro _ h2
    constructor
    · intro h3 x hx hxe
      exact h3 x hx (fun y hy hyx => h2 y hy (hyx.trans hxe)) hxe
    · intro h3 x hx _ hxe
      exact h3 x hx hxe
  refine ⟨?_, ?_, ?_, by decide, by decide, by decide, by decide⟩
  · constructor
    · rintro ⟨e, he, hs⟩
      exact ⟨e, (hLmem e).mp he, hs⟩
    · rintro ⟨e, he, hs⟩
      exact ⟨e, (hLmem e).mpr he, hs⟩
  · constructor
    · rintro ⟨e, he, hs⟩
      obtain ⟨h1, h2⟩ := (hOmem e).mp he
      refine ⟨⟨e, h1, hs⟩, ?_⟩
      rintro ⟨a, ha, has⟩
      exact h2 ⟨a, ha, by rw [has, hs]⟩
    · rintro ⟨⟨e, he, hs⟩, hnl⟩
      refine ⟨e, (hOmem e).mpr ⟨he, ?_⟩, hs⟩
      rintro ⟨a, ha, has⟩
      exact hnl ⟨a, ha, by rw [has, hs]⟩
  · constructor
    · rintro ⟨e, he, hs⟩
      obtain ⟨h1, h2, h3⟩ := (hNmem e).mp he
      refine ⟨⟨e, h1, hs⟩, ?_, ?_⟩
      · rintro ⟨a, ha, has⟩
        exact h2 ⟨a, ha, by rw [has, hs]⟩
      · rintro ⟨a, ha, has⟩
        exact h3 ⟨a, ha, by rw [has, hs]⟩
    · rintro ⟨⟨e, he, hs⟩, hnl, hno⟩
      refine ⟨e, (hNmem e).mpr ⟨he, ?_, ?_⟩, hs⟩
      · rintro ⟨a, ha, has⟩
        exact hnl ⟨a, ha, by rw [has, hs]⟩
      · rintro ⟨a, ha, has⟩
        exact hno ⟨a, ha, by rw [has, hs]⟩

/-! ## Claim C7: stopword suppression and the Leiden scenario -/

/-- The Dutch location detector as actually constructed: its entity list
passes through `_load_json_entities`, which drops any entity whose
lowercase form is in `COMMON_WORDS` — including "Leiden". -/
def leidenLoadedD : DetectorCfg :=
  { dname := pyStr "location", ftypeD := pyStr "location",
    commonWords := dutchCommonWords,
    entities := loadJsonEntities [pyStr "Leiden"] dutchCommonWords }

/-- A location detector handed the entity "Leiden" directly, bypassing the
load filter: this isolates the match-time stopword filter of `iter_filth`. -/
def leidenDirectD : DetectorCfg :=
  { dname := pyStr "location", ftypeD := pyStr "location",
    commonWords := dutchCommonWords, entities := [pyStr "Leiden"] }

/-- The default replacer configuration with abstract hash `h`. -/
def cfgWith (h : Str → Nat) : ReplacerCfg :=
  { algorithm := pyStr "md5", modulus := 10000, md5h := h, sha256h := h }

/-- The filth produced for the capitalized "Leiden" occurrence. -/
def fLeidenRec : FilthM :=
  { ftype := pyStr "location", beg := 15, fend := 21, ftext := pyStr "Leiden",
    detectorName := pyStr "location" }

theorem placeholderFor_leiden (h : Str → Nat) :
    placeholderFor (cfgWith h) fLeidenRec =
      pyStr "LOCATION-" ++ padZeros 4 (natDigits (h (pyStr "location:Leiden") % 10000)) := by
  unfold placeholderFor
  rw [show placeholderType fLeidenRec = pyStr "LOCATION" by decide]
  rw [show mkKey fLeidenRec = pyStr "location:Leiden" by decide]
  rw [show effModulus (cfgWith h) = 10000 from rfl]
  rw [show phWidth (cfgWith h) = 4 by
    unfold phWidth
    rw [show effModulus (cfgWith h) = 10000 from rfl]
    decide]
  rw [show hashOf (cfgWith h) (pyStr "location:Leiden") = h (pyStr "location:Leiden") from rfl]
  rfl

/-- Claim C7, evaluated: the match-time filter alone behaves as the claim
says (lowercase "leiden" rejected, capitalized "Leiden" matched and given a
`LOCATION-…` placeholder), but the detector as constructed never loads
"Leiden" at all — its lowercase form sits in `COMMON_WORDS`, whose load-time
check drops it regardless of capitalization — so the capitalized scenario
produces no match through the real pipeline. -/
theorem c7_stopword_suppression :
    loadJsonEntities [pyStr "Leiden"] dutchCommonWords = [] ∧
    iterFilth leidenLoadedD (pyStr "we leiden dit project") = [] ∧
    iterFilth leidenLoadedD (pyStr "We reizen naar Leiden") = [] ∧
    iterFilth leidenDirectD (pyStr "we leiden dit project") = [] ∧
    (iterFilth leidenDirectD (pyStr "We reizen naar Leiden")).map FilthM.ftext
        = [pyStr "Leiden"] ∧
    (∀ h : Str → Nat,
      (processFilth (cfgWith h)
          (iterFilth leidenDirectD (pyStr "We reizen naar Leiden")) []).map
            FilthM.replacement
        = [some (pyStr "LOCATION-" ++
            padZeros 4 (natDigits (h (pyStr "location:Leiden") % 10000)))]) := by
  refine ⟨by decide, by decide, by decide, by decide, by decide, ?_⟩
  intro h
  rw [show iterFilth leidenDirectD (pyStr "We reizen naar Leiden") = [fLeidenRec] by decide]
  calc (processFilth (cfgWith h) [fLeidenRec] []).map FilthM.replacement
      = [some (placeholderFor (cfgWith h) fLeidenRec)] := rfl
    _ = [some (pyStr "LOCATION-" ++
          padZeros 4 (natDigits (h (pyStr "location:Leiden") % 10000)))] := by
        rw [placeholderFor_leiden h]

/-! ## Claim C5: the overlap resolver -/

/-- Two candidate spans do not intersect. -/
def nonOverlap (a b : Cand) : Prop := ¬(a.cs < b.ce ∧ b.cs < a.ce)

theorem nonOverlap_symm : ∀ {a b : Cand}, nonOverlap a b → nonOverlap b a := by
  intro a b h hc
  exact h ⟨hc.2, hc.1⟩

instance : IsTotal Cand startLe := ⟨fun a b => Nat.le_total a.cs b.cs⟩

instance : IsTrans Cand startLe := ⟨fun _ _ _ h1 h2 => Nat.le_trans h1 h2⟩

theorem greedySelect_cons_pos (c : Cand) (rest acc : List Cand)
    (hcond : (acc.any fun d => !(decide (c.ce ≤ d.cs) || decide (c.cs ≥ d.ce))) = true) :
    greedySelect (c :: rest) acc = greedySelect rest acc := by
  unfold greedySelect
  rw [if_pos hcond]
  cases rest <;> rfl

theorem greedySelect_cons_neg (c : Cand) (rest acc : List Cand)
    (hcond : ¬((acc.any fun d => !(decide (c.ce ≤ d.cs) || decide (c.cs ≥ d.ce))) = true)) :
    greedySelect (c :: rest) acc = greedySelect rest (acc ++ [c]) := by
  unfold greedySelect
  rw [if_neg hcond]
  cases rest <;> rfl

theorem greedySelect_sub :
    ∀ (l acc : List Cand) (x : Cand), x ∈ greedySelect l acc → x ∈ acc ∨ x ∈ l := by
  intro l
  induction l with
  | nil => intro acc x hx; exact Or.inl hx
  | cons c rest ih =>
    intro acc x hx
    by_cases hcond : (acc.any fun d => !(decide (c.ce ≤ d.cs) || decide (c.cs ≥ d.ce))) = true
    · rw [greedySelect_cons_pos c rest acc hcond] at hx
      rcases ih _ _ hx with h | h
      · exact Or.inl h
      · exact Or.inr (List.mem_cons_of_mem _ h)
    · rw [greedySelect_cons_neg c rest acc hcond] at hx
      rcases ih _ _ hx with h | h
      · rcases List.mem_append.mp h with h' | h'
        · exact Or.inl h'
        · simp at h'
          exact Or.inr (h' ▸ List.mem_cons_self _ _)
      · exact Or.inr (List.mem_cons_of_mem _ h)

theorem greedySelect_pairwise :
    ∀ (l acc : List Cand), acc.Pairwise nonOverlap →
      (greedySelect l acc).Pairwise nonOverlap := by
  intro l
  induction l with
  | nil => intro acc h; exact h
  | cons c rest ih =>
    intro acc h
    by_cases hcond : (acc.any fun d => !(decide (c.ce ≤ d.cs) || decide (c.cs ≥ d.ce))) = true
    · rw [greedySelect_cons_pos c rest acc hcond]
      exact ih _ h
    · rw [greedySelect_cons_neg c rest acc hcond]
      apply ih
      rw [List.pairwise_append]
      refine ⟨h, List.pairwise_singleton _ _, ?_⟩
      intro a ha b hb
      simp only [List.mem_singleton] at hb
      subst hb
      have hall : ∀ d ∈ acc, (b.ce ≤ d.cs ∨ d.ce ≤ b.cs) := by
        intro d hd
        by_contra hcon
        push_neg at hcon
        exact hcond (List.any_eq_true.mpr ⟨d, hd, by
          simp only [Bool.not_eq_true', Bool.or_eq_false_iff, decide_eq_false_iff_not]
          omega⟩)
      have := hall a ha
      unfold nonOverlap
      omega

/-- Claim C5: the resolver output contains only input candidates, is
pairwise non-intersecting (no two spans `[s1,e1)`, `[s2,e2)` with
`s1 < e2` and `s2 < e1`), and is sorted by start offset. -/
theorem c5_overlap_resolver (cands : List Cand) :
    (filterOverlappingCandidates cands).Pairwise nonOverlap ∧
    (∀ c ∈ filterOverlappingCandidates cands, c ∈ cands) ∧
    (filterOverlappingCandidates cands).Sorted startLe := by
  unfold filterOverlappingCandidates
  by_cases hnil : cands = []
  · simp [hnil]
  · rw [if_neg hnil]
    have hperm := List.perm_insertionSort startLe
      (greedySelect (List.insertionSort rankLe cands) [])
    refine ⟨?_, ?_, List.sorted_insertionSort startLe _⟩
    · exact (List.Perm.pairwise_iff (fun hxy => nonOverlap_symm hxy) hperm).mpr
        (greedySelect_pairwise _ [] List.Pairwise.nil)
    · intro c hc
      have hc1 : c ∈ greedySelect (List.insertionSort rankLe cands) [] :=
        hperm.mem_iff.mp hc
      rcases greedySelect_sub _ _ _ hc1 with h | h
      · simp at h
      · exact ((List.perm_insertionSort rankLe cands).mem_iff).mp h

/-! ## Claim C8: the normalization-aware fallback -/

theorem isSpaceB_lowerCh (c : Nat) : isSpaceB (lowerCh c) = isSpaceB c := by
  unfold lowerCh
  by_cases h1 : (decide (65 ≤ c) && decide (c ≤ 90)) = true
  · rw [if_pos h1]
    simp only [Bool.and_eq_true, decide_eq_true_eq] at h1
    have hl : isSpaceB (c + 32) = false := by simp [isSpaceB]; omega
    have hr : isSpaceB c = false := by simp [isSpaceB]; omega
    rw [hl, hr]
  · rw [if_neg h1]
    by_cases h2 : (decide (192 ≤ c) && decide (c ≤ 222) && decide (c ≠ 215)) = true
    · rw [if_pos h2]
      simp only [Bool.and_eq_true, decide_eq_true_eq] at h2
      have hl : isSpaceB (c + 32) = false := by simp [isSpaceB]; omega
      have hr : isSpaceB c = false := by simp [isSpaceB]; omega
      rw [hl, hr]
    · rw [if_neg h2]

theorem pyStrip_pyLower (s : Str) : pyStrip (pyLower s) = pyLower (pyStrip s) := by
  have hfun : (isSpaceB ∘ lowerCh) = isSpaceB := funext fun c => isSpaceB_lowerCh c
  unfold pyStrip pyLower
  rw [List.dropWhile_map, hfun, ← List.map_reverse, List.dropWhile_map, hfun,
    ← List.map_reverse]

theorem fbScanAux_mem (D : DetectorCfg) (text normText normEnt : Str) :
    ∀ (fuel pos : Nat) (seen : List (Nat × Nat)) (cands : List Cand) (c : Cand),
      c ∈ (fbScanAux D text normText normEnt fuel pos seen cands).2 →
      c ∈ cands ∨ (fbAcceptB D text c.cs c.ce = true ∧ c.ctext = strSlice text c.cs c.ce) := by
  intro fuel
  induction fuel with
  | zero => intro pos seen cands c hc; exact Or.inl hc
  | succ f ih =>
    intro pos seen cands c
    cases hfind : findFromB normText normEnt pos with
    | none =>
      intro hc
      replace hc : c ∈ cands := by
        unfold fbScanAux at hc
        rw [hfind] at hc
        exact hc
      exact Or.inl hc
    | some idx =>
      intro hc
      replace hc : c ∈ ((match mapNormalizedSpan text idx normEnt.length with
          | none => fbScanAux D text normText normEnt f (idx + 1) seen cands
          | some (s, e) =>
            if decide ((s, e) ∈ seen) = true then
              fbScanAux D text normText normEnt f (idx + 1) seen cands
            else if fbAcceptB D text s e = true then
              fbScanAux D text normText normEnt f (idx + 1) (seen ++ [(s, e)])
                (cands ++ [⟨s, e, strSlice text s e⟩])
            else fbScanAux D text normText normEnt f (idx + 1) seen cands) :
            List (Nat × Nat) × List Cand).2 := by
        unfold fbScanAux at hc
        rw [hfind] at hc
        exact hc
      cases hmap : mapNormalizedSpan text idx normEnt.length with
      | none =>
        rw [hmap] at hc
        exact ih _ _ _ _ hc
      | some se =>
        obtain ⟨s, e⟩ := se
        rw [hmap] at hc
        replace hc : c ∈ ((if decide ((s, e) ∈ seen) = true then
            fbScanAux D text normText normEnt f (idx + 1) seen cands
          else if fbAcceptB D text s e = true then
            fbScanAux D text normText normEnt f (idx + 1) (seen ++ [(s, e)])
              (cands ++ [⟨s, e, strSlice text s e⟩])
          else fbScanAux D text normText normEnt f (idx + 1) seen cands) :
            List (Nat × Nat) × List Cand).2 := hc
        by_cases hseen : decide ((s, e) ∈ seen) = true
        · rw [if_pos hseen] at hc
          exact ih _ _ _ _ hc
        · rw [if_neg hseen] at hc
          by_cases hacc : fbAcceptB D text s e = true
          · rw [if_pos hacc] at hc
            rcases ih _ _ _ _ hc with h | h
            · rcases List.mem_append.mp h with h' | h'
              · exact Or.inl h'
              · simp only [List.mem_singleton] at h'
                subst h'
                exact Or.inr ⟨hacc, rfl⟩
            · exact Or.inr h
          · rw [if_neg hacc] at hc
            exact ih _ _ _ _ hc

theorem fbFold_mem (D : DetectorCfg) (text normText : Str) :
    ∀ (els : List Str) (seen : List (Nat × Nat)) (cands : List Cand) (c : Cand),
      c ∈ (fbFold D text normText els seen cands).2 →
      c ∈ cands ∨ (fbAcceptB D text c.cs c.ce = true ∧
        c.ctext = strSlice text c.cs c.ce ∧
        ∃ el ∈ els, 5 ≤ (normalizeForEntity el).length) := by
  intro els
  induction els with
  | nil => intro seen cands c hc; exact Or.inl hc
  | cons el rest ih =>
    intro seen cands c hc
    replace hc : c ∈ ((if (seen.any fun sp =>
          decide (pyLower (strSlice text sp.1 sp.2) = el)) = true then
        fbFold D text normText rest seen cands
      else if (normalizeForEntity el).length < 5 then
        fbFold D text normText rest seen cands
      else
        fbFold D text normText rest
          (fbScanAux D text normText (normalizeForEntity el)
            (normText.length + 2) 0 seen cands).1
          (fbScanAux D text normText (normalizeForEntity el)
            (normText.length + 2) 0 seen cands).2) :
        List (Nat × Nat) × List Cand).2 := by
      unfold fbFold at hc
      exact hc
    by_cases hmat : (seen.any fun sp =>
        decide (pyLower (strSlice text sp.1 sp.2) = el)) = true
    · rw [if_pos hmat] at hc
      rcases ih _ _ _ hc with h | ⟨h1, h2, el', hel', hlen⟩
      · exact Or.inl h
      · exact Or.inr ⟨h1, h2, el', List.mem_cons_of_mem _ hel', hlen⟩
    · rw [if_neg hmat] at hc
      by_cases hlen : (normalizeForEntity el).length < 5
      · rw [if_pos hlen] at hc
        rcases ih _ _ _ hc with h | ⟨h1, h2, el', hel', hl⟩
        · exact Or.inl h
        · exact Or.inr ⟨h1, h2, el', List.mem_cons_of_mem _ hel', hl⟩
      · rw [if_neg hlen] at hc
        rcases ih _ _ _ hc with h | ⟨h1, h2, el', hel', hl⟩
        · rcases fbScanAux_mem D text normText _ _ _ _ _ _ h with h' | ⟨ha, hb⟩
          · exact Or.inl h'
          · exact Or.inr ⟨ha, hb, el, List.mem_cons_self _ _, by omega⟩
        · exact Or.inr ⟨h1, h2, el', List.mem_cons_of_mem _ hel', hl⟩

/-- Claim C8: every candidate added by the normalization-aware fallback
(`_search_normalized_entities`) originates from a multi-word entity whose
normalized form has length at least 5, and its mapped span passes the
heuristic filter chain: word boundary, URL/markdown-context exclusion,
stopword suppression, category capitalization, and alphabetic content. -/
theorem c8_fallback_filters (D : DetectorCfg) (text : Str) (c : Cand)
    (hcw : ∀ w ∈ D.commonWords, pyStrip w = w)
    (hc : c ∈ (allCandidates D text).2)
    (hnotmain : c ∉ (mainCandidates D text).2) :
    boundaryOkB text c.cs c.ce = true ∧
    urlTokenBadB text c.cs c.ce = false ∧
    stopwordRejectB D.commonWords (strSlice text c.cs c.ce) = false ∧
    catCapRejectB D.dname (strSlice text c.cs c.ce) = false ∧
    (strSlice text c.cs c.ce).any isAlphaB = true ∧
    c.ctext = strSlice text c.cs c.ce ∧
    ∃ el ∈ multiWordEntities D, 5 ≤ (normalizeForEntity el).length := by
  unfold allCandidates at hc
  by_cases hmw : multiWordEntities D = []
  · rw [if_pos hmw] at hc
    exact absurd hc hnotmain
  · rw [if_neg hmw] at hc
    rcases fbFold_mem D text _ _ _ _ _ hc with h | ⟨hacc, htext, el, hel, hlen⟩
    · exact absurd h hnotmain
    · unfold fbAcceptB at hacc
      simp only [Bool.and_eq_true, Bool.not_eq_true', Bool.or_eq_false_iff,
        decide_eq_false_iff_not] at hacc
      obtain ⟨⟨⟨⟨⟨halpha, hnl⟩, hbound⟩, hsw⟩, hurl⟩, hcat⟩ := hacc
      refine ⟨hbound, hurl, ?_, hcat, halpha, htext, el, hel, hlen⟩
      unfold stopwordRejectB
      simp only [Bool.and_eq_false_iff]
      right
      simp only [decide_eq_false_iff_not]
      intro hmem
      apply hsw
      have h1 : pyStrip (pyLower (strSlice text c.cs c.ce))
          = pyLower (strSlice text c.cs c.ce) := hcw _ hmem
      rw [← pyStrip_pyLower, h1]
      exact hmem

/-- A multi-word detector used to exercise the fallback matcher. -/
def fbD : DetectorCfg :=
  { dname := pyStr "location", ftypeD := pyStr "location",
    commonWords := dutchCommonWords, entities := [pyStr "Foo Bar"] }

/-- The candidate the fallback maps back for "Foo  Bar" (double space). -/
def cFB : Cand := ⟨0, 8, pyStr "Foo  Bar"⟩

/-- Witness for C8 on a concrete fallback-only match. -/
theorem c8_fallback_filters_witness :
    ((∀ w ∈ fbD.commonWords, pyStrip w = w) ∧
      cFB ∈ (allCandidates fbD (pyStr "Foo  Bar")).2 ∧
      cFB ∉ (mainCandidates fbD (pyStr "Foo  Bar")).2) ∧
    (boundaryOkB (pyStr "Foo  Bar") cFB.cs cFB.ce = true ∧
      urlTokenBadB (pyStr "Foo  Bar") cFB.cs cFB.ce = false ∧
      stopwordRejectB fbD.commonWords
        (strSlice (pyStr "Foo  Bar") cFB.cs cFB.ce) = false ∧
      catCapRejectB fbD.dname (strSlice (pyStr "Foo  Bar") cFB.cs cFB.ce) = false ∧
      (strSlice (pyStr "Foo  Bar") cFB.cs cFB.ce).any isAlphaB = true ∧
      cFB.ctext = strSlice (pyStr "Foo  Bar") cFB.cs cFB.ce ∧
      ∃ el ∈ multiWordEntities fbD, 5 ≤ (normalizeForEntity el).length) :=
  ⟨⟨by decide, by decide, by decide⟩,
    c8_fallback_filters fbD (pyStr "Foo  Bar") cFB (by decide) (by decide) (by decide)⟩

/-! ## `MarkdownUrlDetector` (`markdown_url_detector.py`)

Executable model of the markdown-link regular expression
`(\[\[|\[)([^\]]*)(\]\]|\])\((?:[^)]+?|[^)]*\([^)]*\)[^)]*)\)` with
Python backtracking semantics.  Since `[^)]` cannot match `)`, the lazy
first URL branch succeeds exactly when at least one character stands
before the next `)`, and the second branch is then unreachable. -/

structure MdMatch where
  ms : Nat
  me : Nat
  openN : Nat
  closeN : Nat
  linkText : Str
  urlRaw : Str
deriving DecidableEq

/-- Length of the run of non-`]` characters at the head of a list. -/
def nonCloseRun : Str → Nat
  | [] => 0
  | c :: t => if c = 93 then 0 else 1 + nonCloseRun t

/-- Parse `\((?P<url>…)\)` at index `r`: succeeds when `(` is followed by at
least one character before the next `)`; returns the end offset and the raw
URL group. -/
def mdParen (text : Str) (r : Nat) : Option (Nat × Str) :=
  if r < text.length && chAt text r = 40 then
    match findFromB text [41] (r + 1) with
    | some p => if r + 1 < p then some (p + 1, strSlice text (r + 1) p) else none
    | none => none
  else none

/-- Parse the closing-bracket alternation `\]\]|\]` at index `q`, preferring
the doubled form, then the parenthesised URL. -/
def mdClose (text : Str) (q : Nat) : Option (Nat × Nat × Str) :=
  if q < text.length && chAt text q = 93 then
    if q + 1 < text.length && chAt text (q + 1) = 93 then
      match mdParen text (q + 2) with
      | some (e, url) => some (2, e, url)
      | none =>
        match mdParen text (q + 1) with
        | some (e, url) => some (1, e, url)
        | none => none
    else
      match mdParen text (q + 1) with
      | some (e, url) => some (1, e, url)
      | none => none
  else none

/-- Parse the link-text group (maximal run of non-`]`) starting at `p`, then
the closers and URL; returns `(closeN, end, linkText, urlRaw)`. -/
def mdFromOpen (text : Str) (p : Nat) : Option (Nat × Nat × Str × Str) :=
  match mdClose text (p + nonCloseRun (text.drop p)) with
  | some (cn, e, url) =>
      some (cn, e, strSlice text p (p + nonCloseRun (text.drop p)), url)
  | none => none

/-- Attempt a markdown-link match at index `i`, preferring the doubled
opening bracket and backtracking to the single one. -/
def mdMatchAt (text : Str) (i : Nat) : Option MdMatch :=
  if i < text.length && chAt text i = 91 then
    if i + 1 < text.length && chAt text (i + 1) = 91 then
      match mdFromOpen text (i + 2) with
      | some (cn, e, lt, url) => some ⟨i, e, 2, cn, lt, url⟩
      | none =>
        match mdFromOpen text (i + 1) with
        | some (cn, e, lt, url) => some ⟨i, e, 1, cn, lt, url⟩
        | none => none
    else
      match mdFromOpen text (i + 1) with
      | some (cn, e, lt, url) => some ⟨i, e, 1, cn, lt, url⟩
      | none => none
  else none

/-- Model of `re.finditer` for the markdown-link pattern. -/
def mdFindAux (text : Str) : Nat → Nat → List MdMatch
  | 0, _ => []
  | fuel + 1, pos =>
    if pos ≤ text.length then
      match mdMatchAt text pos with
      | some m => m :: mdFindAux text fuel (if pos < m.me then m.me else pos + 1)
      | none => mdFindAux text fuel (pos + 1)
    else []

/-- All markdown-link matches in `text`. -/
def mdFindAll (text : Str) : List MdMatch := mdFindAux text (text.length + 1) 0

/-- URL normalization from `iter_filth`: drop all whitespace, remove one
surrounding angle-bracket pair, trim trailing punctuation. -/
def mdNormalizeUrl (url : Str) : Str :=
  let u := url.filter (fun c => !isSpaceB c)
  let u := if 2 ≤ u.length && chAt u 0 = 60 && chAt u (u.length - 1) = 62
           then strSlice u 1 (u.length - 1) else u
  (u.reverse.dropWhile (fun c => c = 93 || c = 41 || c = 46 || c = 44 ||
    c = 59 || c = 58 || c = 62 || c = 39 || c = 34)).reverse

/-- Model of `MarkdownUrlDetector.iter_filth`: skip mismatched bracket pairs, record
link text and bracket count on the filth. -/
def markdownIterFilth (text : Str) : List FilthM :=
  (mdFindAll text).filterMap (fun m =>
    if (m.openN = 2 && !(m.closeN = 2)) || (m.openN = 1 && !(m.closeN = 1)) then none
    else some { ftype := pyStr "markdown_url", beg := m.ms, fend := m.me,
                ftext := strSlice text m.ms m.me,
                detectorName := pyStr "markdown_url",
                furl := mdNormalizeUrl m.urlRaw,
                md := some (m.linkText, if m.openN = 2 then 2 else 1) })

/-! ## Claim C6: markdown-preserving replacement -/

/-- The filth produced for `[[Example]](http://x)`. -/
def fMd2 : FilthM :=
  { ftype := pyStr "markdown_url", beg := 0, fend := 21,
    ftext := pyStr "[[Example]](http://x)", detectorName := pyStr "markdown_url",
    furl := pyStr "http://x", md := some (pyStr "Example", 2) }

theorem placeholderFor_fMd0 (h : Str → Nat) :
    placeholderFor (cfgWith h) fMd0 =
      pyStr "URL-" ++ padZeros 4 (natDigits
        (h (pyStr "markdown_url:[Example](http://x)") % 10000)) := by
  unfold placeholderFor
  rw [show placeholderType fMd0 = pyStr "URL" by decide]
  rw [show mkKey fMd0 = pyStr "markdown_url:[Example](http://x)" by decide]
  rw [show effModulus (cfgWith h) = 10000 from rfl]
  rw [show phWidth (cfgWith h) = 4 by
    unfold phWidth
    rw [show effModulus (cfgWith h) = 10000 from rfl]
    decide]
  rw [show hashOf (cfgWith h) (pyStr "markdown_url:[Example](http://x)")
      = h (pyStr "markdown_url:[Example](http://x)") from rfl]
  rfl

theorem placeholderFor_fMd2 (h : Str → Nat) :
    placeholderFor (cfgWith h) fMd2 =
      pyStr "URL-" ++ padZeros 4 (natDigits
        (h (pyStr "markdown_url:[[Example]](http://x)") % 10000)) := by
  unfold placeholderFor
  rw [show placeholderType fMd2 = pyStr "URL" by decide]
  rw [show mkKey fMd2 = pyStr "markdown_url:[[Example]](http://x)" by decide]
  rw [show effModulus (cfgWith h) = 10000 from rfl]
  rw [show phWidth (cfgWith h) = 4 by
    unfold phWidth
    rw [show effModulus (cfgWith h) = 10000 from rfl]
    decide]
  rw [show hashOf (cfgWith h) (pyStr "markdown_url:[[Example]](http://x)")
      = h (pyStr "markdown_url:[[Example]](http://x)") from rfl]
  rfl

/-- Claim C6: every markdown-origin match is rebuilt as the original opening
brackets, the link text, the matching closers, and the cached placeholder in
parentheses; in particular `[Example](http://x)` becomes `[Example](URL-…)`
and `[[Example]](http://x)` becomes `[[Example]](URL-…)`. -/
theorem c6_markdown_reconstruction :
    (∀ (cfg : ReplacerCfg) (fs : List FilthM) (i : Nat) (fi : FilthM)
        (lt : Str) (bp : Nat),
      fs[i]? = some fi → fi.md = some (lt, bp) →
      ∃ f₀, firstWithKey fs (mkKey fi) = some f₀ ∧
        (processFilth cfg fs [])[i]? = some (withRepl fi (placeholderFor cfg f₀)) ∧
        (withRepl fi (placeholderFor cfg f₀)).replacement =
          some (List.replicate bp 91 ++ lt ++ List.replicate bp 93 ++
            40 :: (placeholderFor cfg f₀ ++ [41]))) ∧
    markdownIterFilth (pyStr "[Example](http://x)") = [fMd0] ∧
    markdownIterFilth (pyStr "[[Example]](http://x)") = [fMd2] ∧
    (∀ h : Str → Nat,
      (processFilth (cfgWith h)
          (markdownIterFilth (pyStr "[Example](http://x)")) []).map FilthM.replacement
        = [some (pyStr "[Example](URL-" ++ padZeros 4 (natDigits
            (h (pyStr "markdown_url:[Example](http://x)") % 10000)) ++ pyStr ")")]) ∧
    (∀ h : Str → Nat,
      (processFilth (cfgWith h)
          (markdownIterFilth (pyStr "[[Example]](http://x)")) []).map FilthM.replacement
        = [some (pyStr "[[Example]](URL-" ++ padZeros 4 (natDigits
            (h (pyStr "markdown_url:[[Example]](http://x)") % 10000)) ++ pyStr ")")]) := by
  refine ⟨?_, by decide, by decide, ?_, ?_⟩
  · intro cfg fs i fi lt bp hfi hmd
    have hlen : i < fs.length := by
      by_contra hlen
      rw [List.getElem?_eq_none (by omega)] at hfi
      exact Option.noConfusion hfi
    obtain ⟨fi', f₀, h1, h2, h3⟩ := processFilth_spec cfg fs [] [] (fun _ => rfl) i hlen
    have hfieq : fi' = fi := by
      rw [hfi] at h1
      exact (Option.some_injective _ h1).symm ▸ rfl
    subst hfieq
    refine ⟨f₀, h2, h3, ?_⟩
    unfold withRepl renderRepl
    rw [hmd]
  · intro h
    rw [show markdownIterFilth (pyStr "[Example](http://x)") = [fMd0] by decide]
    calc (processFilth (cfgWith h) [fMd0] []).map FilthM.replacement
        = [some (renderRepl fMd0 (placeholderFor (cfgWith h) fMd0))] := rfl
      _ = _ := by rw [placeholderFor_fMd0 h]; rfl
  · intro h
    rw [show markdownIterFilth (pyStr "[[Example]](http://x)") = [fMd2] by decide]
    calc (processFilth (cfgWith h) [fMd2] []).map FilthM.replacement
        = [some (renderRepl fMd2 (placeholderFor (cfgWith h) fMd2))] := rfl
      _ = _ := by rw [placeholderFor_fMd2 h]; rfl

/-- Witness for C6 at the concrete single-bracket example. -/
theorem c6_markdown_reconstruction_witness :
    ∃ f₀, firstWithKey [fMd0] (mkKey fMd0) = some f₀ ∧
      (processFilth cfgZero [fMd0] [])[0]? =
        some (withRepl fMd0 (placeholderFor cfgZero f₀)) ∧
      (withRepl fMd0 (placeholderFor cfgZero f₀)).replacement =
        some (List.replicate 1 91 ++ pyStr "Example" ++ List.replicate 1 93 ++
          40 :: (placeholderFor cfgZero f₀ ++ [41])) :=
  c6_markdown_reconstruction.1 cfgZero [fMd0] 0 fMd0 (pyStr "Example") 1
    (by decide) (by decide)

/-! ## Claim C9: `scrub_text` error policy

The per-locale body (scrubber construction plus `scrubber.clean`, which may
raise) is abstracted as a fallible function `proc`; `scrub_text` records
the success or error message of each locale and raises only when no locale
produced a text. -/

structure ScrubOutcomeM where
  texts : List (Str × Str)
  detectors : List (Str × List Str)
  errors : List (Str × Str)
deriving DecidableEq

/-- Source `DEFAULT_LOCALE`. -/
def defaultLocale : Str := pyStr "nl_NL"

/-- Source `[DEFAULT_LOCALE] if locale is None else [locale]`. -/
def localesToProcess (locale : Option Str) : List Str :=
  match locale with
  | none => [defaultLocale]
  | some l => [l]

/-- The locale actually processed. -/
def resolveLocale (locale : Option Str) : Str :=
  match locale with
  | none => defaultLocale
  | some l => l

/-- Model of `scrub_text`: process each requested locale, collecting scrubbed texts,
detector lists, and per-locale errors; raise only when no text was
produced. -/
def scrubStep (acc : ScrubOutcomeM) (loc : Str)
    (r : Except Str (Str × List Str)) : ScrubOutcomeM :=
  match r with
  | Except.ok td =>
      ⟨acc.texts ++ [(loc, td.1)], acc.detectors ++ [(loc, td.2)], acc.errors⟩
  | Except.error e =>
      ⟨acc.texts, acc.detectors, acc.errors ++ [(loc, e)]⟩

def scrubTextM (proc : Str → Except Str (Str × List Str)) (locale : Option Str) :
    Except Str ScrubOutcomeM :=
  let step := (localesToProcess locale).foldl
    (fun acc loc => scrubStep acc loc (proc loc)) ⟨[], [], []⟩
  if step.texts = [] then Except.error (pyStr "All processing attempts failed")
  else Except.ok step

/-- Claim C9: a successful locale yields a result carrying its text and no
raise; the error of a failed locale is recorded and, every requested locale
having failed, the hard error is raised — and the hard error occurs iff
every requested locale fails. -/
theorem c9_error_policy (proc : Str → Except Str (Str × List Str))
    (locale : Option Str) :
    (∀ t ds, proc (resolveLocale locale) = Except.ok (t, ds) →
      scrubTextM proc locale = Except.ok
        ⟨[(resolveLocale locale, t)], [(resolveLocale locale, ds)], []⟩) ∧
    (∀ e, proc (resolveLocale locale) = Except.error e →
      scrubTextM proc locale = Except.error (pyStr "All processing attempts failed")) ∧
    ((∃ err, scrubTextM proc locale = Except.error err) ↔
      (∀ loc ∈ localesToProcess locale, ∃ e, proc loc = Except.error e)) := by
  have hloc : localesToProcess locale = [resolveLocale locale] := by
    cases locale <;> rfl
  refine ⟨?_, ?_, ?_⟩
  · intro t ds hp
    unfold scrubTextM
    rw [hloc]
    simp [List.foldl, scrubStep, hp]
  · intro e hp
    unfold scrubTextM
    rw [hloc]
    simp [List.foldl, scrubStep, hp]
  · constructor
    · rintro ⟨err, herr⟩ loc hl
      rw [hloc, List.mem_singleton] at hl
      subst hl
      cases hp : proc (resolveLocale locale) with
      | ok td =>
        exfalso
        unfold scrubTextM at herr
        rw [hloc] at herr
        simp [List.foldl, scrubStep, hp] at herr
      | error e => exact ⟨e, rfl⟩
    · intro hall
      obtain ⟨e, he⟩ := hall (resolveLocale locale) (by rw [hloc]; exact List.mem_singleton.mpr rfl)
      refine ⟨pyStr "All processing attempts failed", ?_⟩
      unfold scrubTextM
      rw [hloc]
      simp [List.foldl, scrubStep, he]

/-- Witness for C9: a succeeding and a failing run at concrete inputs. -/
theorem c9_error_policy_witness :
    (scrubTextM (fun _ => Except.ok (pyStr "clean", [pyStr "email"])) none =
      Except.ok ⟨[(defaultLocale, pyStr "clean")], [(defaultLocale, [pyStr "email"])], []⟩) ∧
    (scrubTextM (fun _ => Except.error (pyStr "boom")) none =
      Except.error (pyStr "All processing attempts failed")) :=
  ⟨(c9_error_policy (fun _ => Except.ok (pyStr "clean", [pyStr "email"])) none).1
      (pyStr "clean") [pyStr "email"] rfl,
    (c9_error_policy (fun _ => Except.error (pyStr "boom")) none).2.1
      (pyStr "boom") rfl⟩

/-! ## Claim C2: two-run determinism of the scrub pipeline

The only cross-run mutable state of the pipeline is the class-level Dutch dedup
cache (`DutchEntityDetector._dutch_loaded_entities`), threaded explicitly
here.  Third-party pieces (the scrubadub email/phone/spaCy/date detectors,
its filth merging, and the final substitution engine) are deterministic
functions supplied in the environment. -/

inductive BuilderTag
  | mdUrl | shpUrl | bareUrl | email | phone | privIp | pubIp
  | nlLoc | nlOrg | nlNm | enNm | enOrg | enLoc | dob | spacyDet
deriving DecidableEq

/-- One entry of the detector catalogue. -/
structure SpecEntry where
  sname : Str
  tag : BuilderTag
  enabledByDefault : Bool
deriving DecidableEq

/-- Source `GENERIC_DETECTORS`, in declaration order. -/
def genericSpecs : List SpecEntry :=
  [⟨pyStr "markdown_url", .mdUrl, true⟩,
   ⟨pyStr "sharepoint_url", .shpUrl, true⟩,
   ⟨pyStr "url", .bareUrl, true⟩,
   ⟨pyStr "email", .email, true⟩,
   ⟨pyStr "phone", .phone, true⟩,
   ⟨pyStr "private_ip", .privIp, true⟩,
   ⟨pyStr "public_ip", .pubIp, true⟩]

/-- Source `LOCALE_DETECTORS`, in declaration order per locale. -/
def localeSpecs (locale : Str) : List SpecEntry :=
  if locale = pyStr "nl_NL" then
    [⟨pyStr "location", .nlLoc, true⟩,
     ⟨pyStr "organization", .nlOrg, true⟩,
     ⟨pyStr "name", .nlNm, true⟩,
     ⟨pyStr "spacy_entities", .spacyDet, false⟩]
  else if locale = pyStr "en_US" then
    [⟨pyStr "name", .enNm, true⟩,
     ⟨pyStr "organization", .enOrg, true⟩,
     ⟨pyStr "location", .enLoc, true⟩,
     ⟨pyStr "date_of_birth", .dob, true⟩,
     ⟨pyStr "spacy_entities", .spacyDet, false⟩]
  else []

/-- The environment: entity resources and the deterministic third-party
collaborators. -/
structure ScrubEnv where
  locData : List Str
  orgData : List Str
  nmData : List Str
  enNmData : List Str
  enOrgData : List Str
  enLocData : List Str
  spacyAvailable : Bool
  extDetect : Str → Str → List FilthM
  customDetect : Str → Str → List FilthM
  mergeFilth : List FilthM → List FilthM
  substitute : Str → List FilthM → Str
  md5h : Str → Nat
  sha256h : Str → Nat

/-- A scrub configuration: document-independent inputs of one run. -/
structure ScrubCfg where
  locale : Str
  selected : Option (List Str)
  customText : Option Str
  algorithm : Str
  modulus : Nat

/-- The spaCy `enabled` predicate; every other spec is enabled. -/
def specEnabled (env : ScrubEnv) (locale : Str) (s : SpecEntry) : Bool :=
  if s.tag = BuilderTag.spacyDet then
    (decide (locale = pyStr "nl_NL") || decide (locale = pyStr "en_US")) &&
      env.spacyAvailable
  else true

/-- Model of `_iter_enabled_specs` over generic-then-locale order. -/
def enabledSpecs (env : ScrubEnv) (locale : Str) : List SpecEntry :=
  (genericSpecs ++ localeSpecs locale).filter (specEnabled env locale)

/-- Model of `normalized_selection`: lowercase explicit names and keep the valid
ones, or default to the default-enabled specs. -/
def selectionList (env : ScrubEnv) (cfg : ScrubCfg) : List Str :=
  match cfg.selected with
  | some sel =>
      (sel.map pyLower).filter
        (fun d => decide (d ∈ (enabledSpecs env cfg.locale).map SpecEntry.sname))
  | none => ((enabledSpecs env cfg.locale).filter SpecEntry.enabledByDefault).map
      SpecEntry.sname

/-- A constructed detector instance. -/
inductive DetInstance
  | json (D : DetectorCfg)
  | mdUrl
  | privIp
  | pubIp
  | ext (name : Str)
  | custom (w : Str)
deriving DecidableEq

/-- Construct one detector; the Dutch entity detectors read and extend the
dedup cache, nothing else touches it. -/
def buildOne (env : ScrubEnv) (tag : BuilderTag) (cache : List Str) :
    DetInstance × List Str :=
  match tag with
  | .mdUrl => (.mdUrl, cache)
  | .shpUrl => (.ext (pyStr "sharepoint_url"), cache)
  | .bareUrl => (.ext (pyStr "url"), cache)
  | .email => (.ext (pyStr "email"), cache)
  | .phone => (.ext (pyStr "phone"), cache)
  | .privIp => (.privIp, cache)
  | .pubIp => (.pubIp, cache)
  | .nlLoc =>
      ((.json ⟨pyStr "location", pyStr "location", dutchCommonWords,
          (dedupLoad env.locData dutchCommonWords cache).1⟩ : DetInstance),
        (dedupLoad env.locData dutchCommonWords cache).2)
  | .nlOrg =>
      ((.json ⟨pyStr "organization", pyStr "organization", dutchCommonWords,
          (dedupLoad env.orgData dutchCommonWords cache).1⟩ : DetInstance),
        (dedupLoad env.orgData dutchCommonWords cache).2)
  | .nlNm =>
      ((.json ⟨pyStr "name", pyStr "name", dutchCommonWords,
          (dedupLoad env.nmData dutchCommonWords cache).1⟩ : DetInstance),
        (dedupLoad env.nmData dutchCommonWords cache).2)
  | .enNm => (.json ⟨pyStr "name", pyStr "name", englishCommonWords,
      loadJsonEntities env.enNmData englishCommonWords⟩, cache)
  | .enOrg => (.json ⟨pyStr "organization", pyStr "organization", englishCommonWords,
      loadJsonEntities env.enOrgData englishCommonWords⟩, cache)
  | .enLoc => (.json ⟨pyStr "location", pyStr "location", englishCommonWords,
      loadJsonEntities env.enLocData englishCommonWords⟩, cache)
  | .dob => (.ext (pyStr "date_of_birth"), cache)
  | .spacyDet => (.ext (pyStr "spacy_entities"), cache)

/-- The detector construction loop over the ordered enabled specs. -/
def buildDetectors (env : ScrubEnv) :
    List SpecEntry → List Str → List Str → List DetInstance × List Str
  | [], _, cache => ([], cache)
  | s :: rest, names, cache =>
    if decide (s.sname ∈ names) then
      ((buildOne env s.tag cache).1 ::
          (buildDetectors env rest names (buildOne env s.tag cache).2).1,
        (buildDetectors env rest names (buildOne env s.tag cache).2).2)
    else buildDetectors env rest names cache

/-- Model of `setup_scrubber`: reset the dedup cache for `nl_NL`, compute the enabled
specs and the selection, construct detectors in order (prepending the custom
word detector when requested). -/
def setupScrubber (env : ScrubEnv) (cfg : ScrubCfg) (cache : List Str) :
    List DetInstance × List Str :=
  ((match cfg.customText with
    | some w => [DetInstance.custom w]
    | none => []) ++
      (buildDetectors env (enabledSpecs env cfg.locale) (selectionList env cfg)
        (if cfg.locale = pyStr "nl_NL" then [] else cache)).1,
   (buildDetectors env (enabledSpecs env cfg.locale) (selectionList env cfg)
      (if cfg.locale = pyStr "nl_NL" then [] else cache)).2)

/-- Run one detector on the document. -/
def runDetector (env : ScrubEnv) (text : Str) : DetInstance → List FilthM
  | .json D => iterFilth D text
  | .mdUrl => markdownIterFilth text
  | .privIp => privateIPIterFilth text
  | .pubIp => publicIPIterFilth text
  | .ext n => env.extDetect n text
  | .custom w => env.customDetect w text

/-- The post-processor configuration for a run. -/
def replacerCfg (env : ScrubEnv) (cfg : ScrubCfg) : ReplacerCfg :=
  { algorithm := cfg.algorithm, modulus := cfg.modulus,
    md5h := env.md5h, sha256h := env.sha256h }

/-- One full scrub run: construct detectors (threading the dedup cache),
scan, merge, assign placeholders, substitute.  Returns the final text and
the processed filth list, plus the cache left behind. -/
def scrubRun (env : ScrubEnv) (cfg : ScrubCfg) (text : Str) (cache : List Str) :
    (Str × List FilthM) × List Str :=
  ((env.substitute text
      (processFilth (replacerCfg env cfg)
        (env.mergeFilth ((setupScrubber env cfg cache).1.flatMap
          (runDetector env text))) []),
    processFilth (replacerCfg env cfg)
      (env.mergeFilth ((setupScrubber env cfg cache).1.flatMap
        (runDetector env text))) []),
   (setupScrubber env cfg cache).2)

/-- Tags that read or write the shared Dutch dedup cache. -/
def tagUsesCache : BuilderTag → Bool
  | .nlLoc => true
  | .nlOrg => true
  | .nlNm => true
  | _ => false

theorem buildOne_cache_free (env : ScrubEnv) (tag : BuilderTag)
    (h : tagUsesCache tag = false) (c c' : List Str) :
    (buildOne env tag c).1 = (buildOne env tag c').1 ∧ (buildOne env tag c).2 = c := by
  cases tag <;> first
    | exact ⟨rfl, rfl⟩
    | exact absurd h (by simp [tagUsesCache])

theorem buildDetectors_cache_free (env : ScrubEnv) :
    ∀ (specs : List SpecEntry) (names : List Str) (c c' : List Str),
      (∀ s ∈ specs, tagUsesCache s.tag = false) →
      (buildDetectors env specs names c).1 = (buildDetectors env specs names c').1 := by
  intro specs
  induction specs with
  | nil => intro names c c' _; rfl
  | cons s rest ih =>
    intro names c c' hall
    have hs := hall s (List.mem_cons_self _ _)
    have hrest := fun x hx => hall x (List.mem_cons_of_mem _ hx)
    unfold buildDetectors
    by_cases hsel : decide (s.sname ∈ names) = true
    · rw [if_pos hsel, if_pos hsel]
      obtain ⟨h1, h2⟩ := buildOne_cache_free env s.tag hs c c'
      obtain ⟨_, h2'⟩ := buildOne_cache_free env s.tag hs c' c
      simp only
      rw [h1, h2, h2', ih names c c' hrest]
    · rw [if_neg hsel, if_neg hsel]
      exact ih names c c' hrest

theorem genericSpecs_cache_free :
    ∀ s ∈ genericSpecs, tagUsesCache s.tag = false := by
  intro s hs
  simp only [genericSpecs, List.mem_cons, List.mem_singleton] at hs
  rcases hs with rfl | rfl | rfl | rfl | rfl | rfl | rfl | h
  · rfl
  · rfl
  · rfl
  · rfl
  · rfl
  · rfl
  · rfl
  · simp at h

theorem localeSpecs_cache_free (locale : Str) (hl : ¬(locale = pyStr "nl_NL")) :
    ∀ s ∈ localeSpecs locale, tagUsesCache s.tag = false := by
  intro s hs
  unfold localeSpecs at hs
  rw [if_neg hl] at hs
  by_cases he : locale = pyStr "en_US"
  · rw [if_pos he] at hs
    simp only [List.mem_cons, List.mem_singleton] at hs
    rcases hs with rfl | rfl | rfl | rfl | rfl | h
    · rfl
    · rfl
    · rfl
    · rfl
    · rfl
    · simp at h
  · rw [if_neg he] at hs
    simp at hs

theorem setupScrubber_fst_cache_free (env : ScrubEnv) (cfg : ScrubCfg)
    (c c' : List Str) :
    (setupScrubber env cfg c).1 = (setupScrubber env cfg c').1 := by
  unfold setupScrubber
  simp only
  by_cases hl : cfg.locale = pyStr "nl_NL"
  · rw [if_pos hl, if_pos hl]
  · rw [if_neg hl, if_neg hl]
    have hfree : ∀ s ∈ enabledSpecs env cfg.locale, tagUsesCache s.tag = false := by
      intro s hs
      unfold enabledSpecs at hs
      have hs' := (List.mem_filter.mp hs).1
      rcases List.mem_append.mp hs' with h | h
      · exact genericSpecs_cache_free s h
      · exact localeSpecs_cache_free cfg.locale hl s h
    rw [buildDetectors_cache_free env _ _ c c' hfree]

/-- Claim C2: the scrub output (final substituted text and assigned
replacement strings) is independent of the inherited dedup-cache state, so
running the same document, locale, detector selection, and hash
configuration twice in a row — the second run inheriting the cache of the first —
produces identical output. -/
theorem c2_two_run_determinism (env : ScrubEnv) (cfg : ScrubCfg) (text : Str)
    (c1 c2 : List Str) :
    (scrubRun env cfg text c1).1 = (scrubRun env cfg text c2).1 ∧
    (scrubRun env cfg text c1).1 =
      (scrubRun env cfg text ((scrubRun env cfg text c1).2)).1 := by
  have key : ∀ (a b : List Str),
      (scrubRun env cfg text a).1 = (scrubRun env cfg text b).1 := by
    intro a b
    unfold scrubRun
    simp only
    rw [setupScrubber_fst_cache_free env cfg a b]
  exact ⟨key c1 c2, key c1 _⟩

/-- Witness for C3 at the Bergen lists: the organization-level iff,
instantiated and usable concretely. -/
theorem c3_category_priority_witness :
    (∃ e ∈ (loadDutchNL bergenCities bergenOrgs [] []).orgEnts,
        pyLower e = pyStr "bergen") ↔
      ((∃ e ∈ loadJsonEntities bergenOrgs dutchCommonWords,
          pyLower e = pyStr "bergen") ∧
        ¬(∃ e ∈ loadJsonEntities bergenCities dutchCommonWords,
          pyLower e = pyStr "bergen")) :=
  (c3_category_priority bergenCities bergenOrgs [] (pyStr "bergen")).2.1

/-- Witness for C5 at a concrete candidate list. -/
theorem c5_overlap_resolver_witness :
    (filterOverlappingCandidates
        [⟨0, 5, pyStr "abcde"⟩, ⟨3, 8, pyStr "defgh"⟩, ⟨9, 12, pyStr "jkl"⟩]).Pairwise
      nonOverlap :=
  (c5_overlap_resolver
    [⟨0, 5, pyStr "abcde"⟩, ⟨3, 8, pyStr "defgh"⟩, ⟨9, 12, pyStr "jkl"⟩]).1

/-- Witness for C2 at a concrete environment and configuration. -/
theorem c2_two_run_determinism_witness :
    (scrubRun
        ⟨[pyStr "Bergen"], [], [], [], [], [], false,
          fun _ _ => [], fun _ _ => [], fun fs => fs, fun t _ => t,
          hashZero, hashZero⟩
        ⟨pyStr "nl_NL", none, none, pyStr "md5", 10000⟩
        (pyStr "Ik woon in Bergen") []).1 =
      (scrubRun
        ⟨[pyStr "Bergen"], [], [], [], [], [], false,
          fun _ _ => [], fun _ _ => [], fun fs => fs, fun t _ => t,
          hashZero, hashZero⟩
        ⟨pyStr "nl_NL", none, none, pyStr "md5", 10000⟩
        (pyStr "Ik woon in Bergen")
        ((scrubRun
          ⟨[pyStr "Bergen"], [], [], [], [], [], false,
            fun _ _ => [], fun _ _ => [], fun fs => fs, fun t _ => t,
            hashZero, hashZero⟩
          ⟨pyStr "nl_NL", none, none, pyStr "md5", 10000⟩
          (pyStr "Ik woon in Bergen") []).2)).1 :=
  (c2_two_run_determinism
    ⟨[pyStr "Bergen"], [], [], [], [], [], false,
      fun _ _ => [], fun _ _ => [], fun fs => fs, fun t _ => t,
      hashZero, hashZero⟩
    ⟨pyStr "nl_NL", none, none, pyStr "md5", 10000⟩
    (pyStr "Ik woon in Bergen") [] []).2
